import Mathlib

/-!
# Dynarmic x64 JIT interface and IR operand values

Shallow embedding of `externals/dynarmic/src/backend_x64/interface_x64.cpp` (cache
invalidation, execution guard, context snapshots) and of
`externals/dynarmic/src/frontend/ir/value.cpp` (operand values and their identity-following
accessors, in the namespace `IR` further down).

* `Jit` is the pair of `Dynarmic::Jit` (its `is_executing` flag) and `Jit::Impl`
  (all other fields), flattened into one record.
* The collaborators whose sources are not part of this development
  (`BlockOfCode`, `EmitX64`, the translation pipeline, the `Cpsr`/`Fpscr` packing of
  `JitState`) are taken as parameters, collected in `Backend`.
* `size_t` is 64 bits wide on the x64 backend, `u32` is 32 bits wide; both wrap.
* `Jit.trace` is an observation aid (not a member of the C++ object): the calls made
  so far on the collaborators, oldest first.
-/

namespace Dynarmic

/-- Number of values of `size_t` on the x64 backend. -/
def SIZE_T_MOD : Nat := 2 ^ 64

/-- Number of values of `u32`. -/
def U32_MOD : Nat := 2 ^ 32

/-! ## Data model -/

/-- Modelled from the spec: `IR::LocationDescriptor` (frontend/ir/location_descriptor.h is not
among the sources). "Location Key: address: 32-bit, mode-flags, fp-control bits". -/
structure LocationDescriptor where
  pc : Nat
  cpsr : Nat
  fpscr : Nat
deriving DecidableEq, Repr

/-- Modelled from the spec: `EmitX64::BlockDescriptor` (backend_x64/emit_x64.h is not among the
sources). "Block Descriptor: entry reference into the executable buffer, size in bytes". -/
structure BlockDescriptor where
  entrypoint : Nat
  size : Nat
deriving DecidableEq, Repr

/-- The type `boost::icl::interval_set<u32>` (an external library): a sorted list of pairwise
separated closed intervals `[lower, upper]`. -/
structure IntervalSet where
  intervals : List (Nat × Nat)
deriving DecidableEq, Repr

/-- Joining insertion of a non-empty closed interval: intervals that overlap or touch the
new one are merged into it. -/
def IntervalSet.join (lo hi : Nat) : List (Nat × Nat) → List (Nat × Nat)
  | [] => [(lo, hi)]
  | (a, b) :: rest =>
    if hi + 1 < a then (lo, hi) :: (a, b) :: rest
    else if b + 1 < lo then (a, b) :: IntervalSet.join lo hi rest
    else IntervalSet.join (min lo a) (max hi b) rest

/-- The call `set.add(discrete_interval<u32>::closed(lo, hi))`: an interval whose upper bound
lies below its lower bound is empty, and adding an empty interval changes nothing. -/
def IntervalSet.add (rs : IntervalSet) (lo hi : Nat) : IntervalSet :=
  if hi < lo then rs else ⟨IntervalSet.join lo hi rs.intervals⟩

/-- The call `set.empty()`. -/
def IntervalSet.empty (rs : IntervalSet) : Bool := rs.intervals.isEmpty

/-- The call `set.clear()`. -/
def IntervalSet.clear (_rs : IntervalSet) : IntervalSet := ⟨[]⟩

/-- Membership of an address in the set. -/
def IntervalSet.contains (rs : IntervalSet) (x : Nat) : Bool :=
  rs.intervals.any (fun r => decide (r.1 ≤ x) && decide (x ≤ r.2))

/-- Modelled from the spec: `JitState::RSBSize` (backend_x64/jitstate.h is not among the sources);
the return-stack buffer is a "bounded ring". -/
def RSBSize : Nat := 8

/-- Modelled from the spec: `struct JitState` (backend_x64/jitstate.h is not among the sources).
The members are the ones `interface_x64.cpp` names; `std::array<u32, N>` is a list. -/
structure JitState where
  Reg : List Nat
  CPSR_ge : Nat
  CPSR_et : Nat
  CPSR_q : Nat
  CPSR_nzcv : Nat
  CPSR_jaifm : Nat
  ExtReg : List Nat
  guest_MXCSR : Nat
  halt_requested : Bool
  exclusive_state : Nat
  rsb_ptr : Nat
  rsb_location_descriptors : List Nat
  rsb_codeptrs : List Nat
  FPSCR_IDC : Nat
  FPSCR_UFC : Nat
  FPSCR_mode : Nat
  FPSCR_nzcv : Nat
deriving DecidableEq, Repr

/-- Modelled from the spec: `JitState::ResetRSB` (backend_x64/jitstate.h is not among the
sources). The return-stack buffer is "reset to empty": every slot of the ring gets a location
descriptor that no Location Key has and a null code pointer; the write cursor of an empty ring
is immaterial and stays where it is. -/
def JitState.ResetRSB (s : JitState) : JitState :=
  { s with
    rsb_location_descriptors := List.replicate RSBSize 0xFFFFFFFFFFFFFFFF
    rsb_codeptrs := List.replicate RSBSize 0 }

/-- Modelled from the spec: the value-initialised `JitState` written `{}` in `Jit::Reset`
(backend_x64/jitstate.h is not among the sources): "reinitializes all guest register/flag state
to its zero value and resets the return-stack buffer". -/
def JitState.default : JitState :=
  JitState.ResetRSB
    { Reg := List.replicate 16 0
      CPSR_ge := 0
      CPSR_et := 0
      CPSR_q := 0
      CPSR_nzcv := 0
      CPSR_jaifm := 0
      ExtReg := List.replicate 64 0
      guest_MXCSR := 0
      halt_requested := false
      exclusive_state := 0
      rsb_ptr := 0
      rsb_location_descriptors := []
      rsb_codeptrs := []
      FPSCR_IDC := 0
      FPSCR_UFC := 0
      FPSCR_mode := 0
      FPSCR_nzcv := 0 }

/-- One call on a collaborator, as recorded in `Jit.trace`. -/
inductive Call where
  | ResetRSB
  | BlockOfCode_ClearCache
  | EmitX64_ClearCache
  | EmitX64_InvalidateCacheRanges (ranges : IntervalSet)
  | Translate (descriptor : LocationDescriptor)
  | EmitX64_Emit (descriptor : LocationDescriptor)
deriving DecidableEq, Repr

/-- The two flushes of the code cache. -/
def Call.isFlush : Call → Bool
  | .EmitX64_ClearCache => true
  | .EmitX64_InvalidateCacheRanges _ => true
  | _ => false

/-- The calls that invalidate cached state: the two flushes, the clearing of the code buffer
and the reset of the return-stack buffer. -/
def Call.isInvalidating : Call → Bool
  | .Translate _ => false
  | .EmitX64_Emit _ => false
  | _ => true

/-- The collaborators of `interface_x64.cpp` whose sources are not part of this development.
The emitter holds a pointer to the code buffer, so its mutating calls act on both.
`Translate` and `ConstantPropagation` read guest memory through the callbacks fixed at
construction. `VerificationPass` answers `false` where the C++ pass asserts. -/
structure Backend (BlockOfCode EmitX64 IRBlock : Type) where
  SpaceRemaining : BlockOfCode → Nat
  BlockOfCode_ClearCache : BlockOfCode → BlockOfCode
  EmitX64_ClearCache : EmitX64 × BlockOfCode → EmitX64 × BlockOfCode
  EmitX64_InvalidateCacheRanges : EmitX64 × BlockOfCode → IntervalSet → EmitX64 × BlockOfCode
  EmitX64_GetBasicBlock : EmitX64 → LocationDescriptor → Option BlockDescriptor
  EmitX64_Emit : EmitX64 × BlockOfCode → IRBlock → BlockDescriptor × EmitX64 × BlockOfCode
  Translate : LocationDescriptor → IRBlock
  GetSetElimination : IRBlock → IRBlock
  DeadCodeElimination : IRBlock → IRBlock
  ConstantPropagation : IRBlock → IRBlock
  VerificationPass : IRBlock → Bool
  Cpsr : JitState → Nat
  SetCpsr : JitState → Nat → JitState
  Fpscr : JitState → Nat
  SetFpscr : JitState → Nat → JitState

/-- The engine: `Jit::is_executing` together with the members of `Jit::Impl`. -/
structure Jit (BlockOfCode EmitX64 : Type) where
  is_executing : Bool
  block_of_code : BlockOfCode
  jit_state : JitState
  emitter : EmitX64
  invalid_cache_generation : Nat
  invalid_cache_ranges : IntervalSet
  invalidate_entire_cache : Bool
  trace : List Call
deriving DecidableEq

/-- The snapshot `Context::Impl`. -/
structure Context where
  jit_state : JitState
  invalid_cache_generation : Nat
deriving DecidableEq, Repr

/-- Fatal contract violations: the guard `ASSERT(!is_executing)` and a failed verification
pass. -/
inductive Fault where
  | executing
  | verification
deriving DecidableEq, Repr

/-! ## `Jit::Impl` -/

section Engine

variable {BlockOfCode EmitX64 IRBlock : Type}

/-- The method `Jit::Impl::PerformCacheInvalidation`. -/
def PerformCacheInvalidation (B : Backend BlockOfCode EmitX64 IRBlock)
    (s : Jit BlockOfCode EmitX64) : Jit BlockOfCode EmitX64 :=
  if s.invalidate_entire_cache then
    let cleared := B.EmitX64_ClearCache (s.emitter, B.BlockOfCode_ClearCache s.block_of_code)
    { s with
      jit_state := s.jit_state.ResetRSB
      block_of_code := cleared.2
      emitter := cleared.1
      invalid_cache_ranges := s.invalid_cache_ranges.clear
      invalidate_entire_cache := false
      invalid_cache_generation := (s.invalid_cache_generation + 1) % SIZE_T_MOD
      trace := s.trace ++ [Call.ResetRSB, Call.BlockOfCode_ClearCache, Call.EmitX64_ClearCache] }
  else if s.invalid_cache_ranges.empty then
    s
  else
    let evicted := B.EmitX64_InvalidateCacheRanges (s.emitter, s.block_of_code)
      s.invalid_cache_ranges
    { s with
      jit_state := s.jit_state.ResetRSB
      block_of_code := evicted.2
      emitter := evicted.1
      invalid_cache_ranges := s.invalid_cache_ranges.clear
      invalid_cache_generation := (s.invalid_cache_generation + 1) % SIZE_T_MOD
      trace := s.trace ++
        [Call.ResetRSB, Call.EmitX64_InvalidateCacheRanges s.invalid_cache_ranges] }

/-- The method `Jit::Impl::RequestCacheInvalidation`. -/
def RequestCacheInvalidation (B : Backend BlockOfCode EmitX64 IRBlock)
    (s : Jit BlockOfCode EmitX64) : Jit BlockOfCode EmitX64 :=
  if s.is_executing then
    { s with jit_state := { s.jit_state with halt_requested := true } }
  else
    PerformCacheInvalidation B s

/-- The constant `MINIMUM_REMAINING_CODESIZE` of `Jit::Impl::GetBasicBlock`. -/
def MINIMUM_REMAINING_CODESIZE : Nat := 1 * 1024 * 1024

/-- The method `Jit::Impl::GetBasicBlock`. -/
def GetBasicBlock (B : Backend BlockOfCode EmitX64 IRBlock) (s : Jit BlockOfCode EmitX64)
    (descriptor : LocationDescriptor) : Except Fault (BlockDescriptor × Jit BlockOfCode EmitX64) :=
  match B.EmitX64_GetBasicBlock s.emitter descriptor with
  | some block => .ok (block, s)
  | none =>
    let s1 :=
      if B.SpaceRemaining s.block_of_code < MINIMUM_REMAINING_CODESIZE then
        PerformCacheInvalidation B { s with invalidate_entire_cache := true }
      else s
    let ir_block := B.Translate descriptor
    let ir_block := B.GetSetElimination ir_block
    let ir_block := B.DeadCodeElimination ir_block
    let ir_block := B.ConstantPropagation ir_block
    let ir_block := B.DeadCodeElimination ir_block
    if B.VerificationPass ir_block then
      let emitted := B.EmitX64_Emit (s1.emitter, s1.block_of_code) ir_block
      .ok (emitted.1,
        { s1 with
          emitter := emitted.2.1
          block_of_code := emitted.2.2
          trace := s1.trace ++ [Call.Translate descriptor, Call.EmitX64_Emit descriptor] })
    else
      .error Fault.verification

/-- The descriptor built by `Jit::Impl::GetCurrentBlock` from the guest state. -/
def CurrentDescriptor (B : Backend BlockOfCode EmitX64 IRBlock) (jit_state : JitState) :
    LocationDescriptor :=
  { pc := jit_state.Reg.getD 15 0, cpsr := B.Cpsr jit_state, fpscr := jit_state.FPSCR_mode }

/-- The method `Jit::Impl::GetCurrentBlock`, the callback of the dispatcher. -/
def GetCurrentBlock (B : Backend BlockOfCode EmitX64 IRBlock) (s : Jit BlockOfCode EmitX64) :
    Except Fault (Nat × Jit BlockOfCode EmitX64) :=
  match GetBasicBlock B s (CurrentDescriptor B s.jit_state) with
  | .ok (block, s1) => .ok (block.entrypoint, s1)
  | .error e => .error e

/-! ## Public operations of `Jit` -/

/-- The method `Jit::ClearCache`. -/
def ClearCache (B : Backend BlockOfCode EmitX64 IRBlock) (s : Jit BlockOfCode EmitX64) :
    Jit BlockOfCode EmitX64 :=
  RequestCacheInvalidation B { s with invalidate_entire_cache := true }

/-- The upper bound `static_cast<u32>(start_address + length - 1)`: the sum is formed in
`size_t` and then truncated to `u32`. -/
def RangeUpper (start_address length : Nat) : Nat :=
  ((start_address + length + SIZE_T_MOD - 1) % SIZE_T_MOD) % U32_MOD

/-- The method `Jit::InvalidateCacheRange`. -/
def InvalidateCacheRange (B : Backend BlockOfCode EmitX64 IRBlock) (s : Jit BlockOfCode EmitX64)
    (start_address length : Nat) : Jit BlockOfCode EmitX64 :=
  RequestCacheInvalidation B
    { s with
      invalid_cache_ranges :=
        s.invalid_cache_ranges.add start_address (RangeUpper start_address length) }

/-- The method `Jit::Reset`. -/
def Reset (s : Jit BlockOfCode EmitX64) : Except Fault (Jit BlockOfCode EmitX64) :=
  if s.is_executing then .error Fault.executing
  else .ok { s with jit_state := JitState.default }

/-- The method `Jit::HaltExecution`. -/
def HaltExecution (s : Jit BlockOfCode EmitX64) : Jit BlockOfCode EmitX64 :=
  { s with jit_state := { s.jit_state with halt_requested := true } }

/-- The method `Jit::SetCpsr`. -/
def SetCpsr (B : Backend BlockOfCode EmitX64 IRBlock) (s : Jit BlockOfCode EmitX64)
    (value : Nat) : Jit BlockOfCode EmitX64 :=
  { s with jit_state := B.SetCpsr s.jit_state value }

/-- The method `Jit::ClearExclusiveState`. -/
def ClearExclusiveState (s : Jit BlockOfCode EmitX64) : Jit BlockOfCode EmitX64 :=
  { s with jit_state := { s.jit_state with exclusive_state := 0 } }

/-- The method `Jit::SetFpscr`. -/
def SetFpscr (B : Backend BlockOfCode EmitX64 IRBlock) (s : Jit BlockOfCode EmitX64)
    (value : Nat) : Jit BlockOfCode EmitX64 :=
  { s with jit_state := B.SetFpscr s.jit_state value }

/-- The function `TransferJitState`. -/
def TransferJitState (dest src : JitState) (reset_rsb : Bool) : JitState :=
  let dest :=
    { dest with
      CPSR_ge := src.CPSR_ge
      CPSR_et := src.CPSR_et
      CPSR_q := src.CPSR_q
      CPSR_nzcv := src.CPSR_nzcv
      CPSR_jaifm := src.CPSR_jaifm
      Reg := src.Reg
      ExtReg := src.ExtReg
      guest_MXCSR := src.guest_MXCSR
      FPSCR_IDC := src.FPSCR_IDC
      FPSCR_UFC := src.FPSCR_UFC
      FPSCR_mode := src.FPSCR_mode
      FPSCR_nzcv := src.FPSCR_nzcv }
  if reset_rsb then
    dest.ResetRSB
  else
    { dest with
      rsb_ptr := src.rsb_ptr
      rsb_location_descriptors := src.rsb_location_descriptors
      rsb_codeptrs := src.rsb_codeptrs }

/-- The constructor `Context::Context()`: a value-initialised `Context::Impl` whose
return-stack buffer is reset. -/
def Context.default : Context :=
  { jit_state := JitState.default.ResetRSB, invalid_cache_generation := 0 }

/-- The method `Jit::SaveContext(Context&)`; the engine is not modified (`const`). -/
def SaveContextInto (s : Jit BlockOfCode EmitX64) (ctx : Context) : Context :=
  { jit_state := TransferJitState ctx.jit_state s.jit_state false
    invalid_cache_generation := s.invalid_cache_generation }

/-- The method `Jit::SaveContext()`. -/
def SaveContext (s : Jit BlockOfCode EmitX64) : Context :=
  SaveContextInto s Context.default

/-- The method `Jit::LoadContext`. -/
def LoadContext (s : Jit BlockOfCode EmitX64) (ctx : Context) : Jit BlockOfCode EmitX64 :=
  let reset_rsb := decide (ctx.invalid_cache_generation ≠ s.invalid_cache_generation)
  { s with
    jit_state := TransferJitState s.jit_state ctx.jit_state reset_rsb
    trace := if reset_rsb then s.trace ++ [Call.ResetRSB] else s.trace }

/-- The method `Jit::Impl::Disassemble`, as far as the engine is concerned: the block is
resolved or compiled; the text is produced by an external formatter. -/
def Disassemble (B : Backend BlockOfCode EmitX64 IRBlock) (s : Jit BlockOfCode EmitX64)
    (descriptor : LocationDescriptor) : Except Fault (BlockDescriptor × Jit BlockOfCode EmitX64) :=
  GetBasicBlock B s descriptor

/-! ## Execution -/

/-- What can happen while `BlockOfCode::RunCode` is on the stack: the dispatcher asks for the
block at the current guest location, emitted code updates the guest state, or a callback of
the embedder calls back into the engine. -/
inductive Event where
  | GetCurrentBlock
  | Guest (f : JitState → JitState)
  | ClearCache
  | InvalidateCacheRange (start_address length : Nat)
  | HaltExecution

/-- One event of the execution phase. -/
def ExecuteEvent (B : Backend BlockOfCode EmitX64 IRBlock) (s : Jit BlockOfCode EmitX64) :
    Event → Except Fault (Jit BlockOfCode EmitX64)
  | .GetCurrentBlock =>
    match GetCurrentBlock B s with
    | .ok r => .ok r.2
    | .error e => .error e
  | .Guest f => .ok { s with jit_state := f s.jit_state }
  | .ClearCache => .ok (ClearCache B s)
  | .InvalidateCacheRange start_address length =>
    .ok (InvalidateCacheRange B s start_address length)
  | .HaltExecution => .ok (HaltExecution s)

/-- The method `Jit::Impl::Execute`: `RunCode` is not among the sources; its run is given by
the list of events it goes through, in order. -/
def Execute (B : Backend BlockOfCode EmitX64 IRBlock) :
    Jit BlockOfCode EmitX64 → List Event → Except Fault (Jit BlockOfCode EmitX64)
  | s, [] => .ok s
  | s, e :: es =>
    match ExecuteEvent B s e with
    | .ok s1 => Execute B s1 es
    | .error err => .error err

/-- The method `Jit::Run`; `events` is what the guest does during these cycles. -/
def Run (B : Backend BlockOfCode EmitX64 IRBlock) (s : Jit BlockOfCode EmitX64)
    (_cycle_count : Nat) (events : List Event) : Except Fault (Jit BlockOfCode EmitX64) :=
  if s.is_executing then .error Fault.executing
  else
    let s1 := { s with is_executing := true }
    let s2 := { s1 with jit_state := { s1.jit_state with halt_requested := false } }
    match Execute B s2 events with
    | .ok s3 => .ok { PerformCacheInvalidation B s3 with is_executing := false }
    | .error err => .error err

end Engine

/-! ## A concrete code cache -/

/-- Modelled from the spec: a concrete `BlockOfCode` (backend_x64/block_of_code.h is not among
the sources). The code cache "owns the executable buffer and its remaining-capacity
accounting": the buffer is represented by the number of bytes still free. -/
structure DemoBlockOfCode where
  space_remaining : Nat
deriving DecidableEq, Repr

/-- Modelled from the spec: the size of the executable buffer of `DemoBlockOfCode`; the spec
fixes only the 1 MiB threshold, the buffer has to be larger. -/
def DemoBlockOfCode.TOTAL_CODE_SIZE : Nat := 128 * 1024 * 1024

/-- Modelled from the spec: a concrete `EmitX64` (backend_x64/emit_x64.h is not among the
sources): the code cache "maps Location Key to emitted block descriptor". -/
structure DemoEmitX64 where
  block_descriptors : List (LocationDescriptor × BlockDescriptor)
deriving DecidableEq, Repr

/-- Modelled from the spec: a concrete operation graph (frontend/ir/basic_block.h is not among
the sources), reduced to the key it was decoded at and the size of its machine code. -/
structure DemoIRBlock where
  location : LocationDescriptor
  code_size : Nat
deriving DecidableEq, Repr

/-- Modelled from the spec: a concrete set of collaborators. A full flush empties the block
table and frees the whole buffer; a ranged flush removes "only cached blocks whose key address
falls in any pending range"; emission places the block at the first free byte and enters it
in the table; lookup is key-exact; every graph passes verification. -/
def demoBackend : Backend DemoBlockOfCode DemoEmitX64 DemoIRBlock where
  SpaceRemaining := fun boc => boc.space_remaining
  BlockOfCode_ClearCache := fun _ => ⟨DemoBlockOfCode.TOTAL_CODE_SIZE⟩
  EmitX64_ClearCache := fun c => (⟨[]⟩, c.2)
  EmitX64_InvalidateCacheRanges := fun c ranges =>
    (⟨c.1.block_descriptors.filter (fun e => !ranges.contains e.1.pc)⟩, c.2)
  EmitX64_GetBasicBlock := fun em descriptor =>
    (em.block_descriptors.find? (fun e => decide (e.1 = descriptor))).map Prod.snd
  EmitX64_Emit := fun c ir_block =>
    let block : BlockDescriptor :=
      { entrypoint := DemoBlockOfCode.TOTAL_CODE_SIZE - c.2.space_remaining
        size := ir_block.code_size }
    (block, ⟨(ir_block.location, block) :: c.1.block_descriptors⟩,
      ⟨c.2.space_remaining - ir_block.code_size⟩)
  Translate := fun descriptor => ⟨descriptor, 64⟩
  GetSetElimination := fun ir_block => ir_block
  DeadCodeElimination := fun ir_block => ir_block
  ConstantPropagation := fun ir_block => ir_block
  VerificationPass := fun _ => true
  Cpsr := fun jit_state => jit_state.CPSR_nzcv
  SetCpsr := fun jit_state value => { jit_state with CPSR_nzcv := value }
  Fpscr := fun jit_state => jit_state.FPSCR_nzcv
  SetFpscr := fun jit_state value => { jit_state with FPSCR_nzcv := value }

/-- A concrete engine state on the concrete collaborators: the guest state is freshly reset,
the code buffer has `space` bytes free and the block table holds `blocks`. -/
def demoJit (executing : Bool) (space : Nat)
    (blocks : List (LocationDescriptor × BlockDescriptor)) (generation : Nat)
    (ranges : List (Nat × Nat)) (entire : Bool) : Jit DemoBlockOfCode DemoEmitX64 :=
  { is_executing := executing
    block_of_code := ⟨space⟩
    jit_state := JitState.default
    emitter := ⟨blocks⟩
    invalid_cache_generation := generation
    invalid_cache_ranges := ⟨ranges⟩
    invalidate_entire_cache := entire
    trace := [] }

/-- A guest state with one prediction in the return-stack buffer (location key 0x1000, code
pointer 0x40) and the program counter at 0x1000. -/
def demoGuest : JitState :=
  { JitState.default with
    Reg := List.replicate 15 0 ++ [0x1000]
    rsb_ptr := 1
    rsb_location_descriptors := 0x1000 :: List.replicate 7 0xFFFFFFFFFFFFFFFF
    rsb_codeptrs := 0x40 :: List.replicate 7 0 }

/-! ## Predicates on runs -/

section Predicates

variable {BlockOfCode EmitX64 IRBlock : Type}

/-- The state `Jit::Run` hands to `Execute`: guard taken, halt flag cleared. -/
def RunEntry (s : Jit BlockOfCode EmitX64) : Jit BlockOfCode EmitX64 :=
  { s with
    is_executing := true
    jit_state := { s.jit_state with halt_requested := false } }

/-- Something is pending: the full-flush flag is set or the range set is non-empty. -/
def Pending (s : Jit BlockOfCode EmitX64) : Bool :=
  s.invalidate_entire_cache || !s.invalid_cache_ranges.empty

/-- A lookup of the current guest location in state `s` would take the capacity branch of
`GetBasicBlock`: the block is not cached and less than the minimum code space is left. -/
def CapacityFlushDue (B : Backend BlockOfCode EmitX64 IRBlock) (s : Jit BlockOfCode EmitX64) :
    Bool :=
  (B.EmitX64_GetBasicBlock s.emitter (CurrentDescriptor B s.jit_state)).isNone &&
    decide (B.SpaceRemaining s.block_of_code < MINIMUM_REMAINING_CODESIZE)

/-- No block lookup of the run takes the capacity branch of `GetBasicBlock`. -/
def AvoidsCapacityFlush (B : Backend BlockOfCode EmitX64 IRBlock) :
    Jit BlockOfCode EmitX64 → List Event → Bool
  | _, [] => true
  | s, e :: es =>
    (match e with
      | .GetCurrentBlock => !CapacityFlushDue B s
      | _ => true) &&
    (match ExecuteEvent B s e with
      | .ok s1 => AvoidsCapacityFlush B s1 es
      | .error _ => true)

/-- The relation between two engine states when nothing was invalidated in between: same guard,
same generation, the trace grew by translations and emissions only, and neither the full-flush
flag nor a pending address was dropped. -/
structure Quiet (s s1 : Jit BlockOfCode EmitX64) : Prop where
  executing : s1.is_executing = s.is_executing
  generation : s1.invalid_cache_generation = s.invalid_cache_generation
  trace : ∃ new, s1.trace = s.trace ++ new ∧ ∀ c ∈ new, Call.isInvalidating c = false
  entire : s.invalidate_entire_cache = true → s1.invalidate_entire_cache = true
  ranges : ∀ x, s.invalid_cache_ranges.contains x = true →
    s1.invalid_cache_ranges.contains x = true

/-- The return-stack buffer is in the state `ResetRSB` leaves it in. -/
def JitState.RSBIsReset (jit_state : JitState) : Bool :=
  decide (jit_state.rsb_location_descriptors = List.replicate RSBSize 0xFFFFFFFFFFFFFFFF) &&
    decide (jit_state.rsb_codeptrs = List.replicate RSBSize 0)

/-- A call of a public operation of `Jit` by the embedder. -/
inductive Op where
  | Run (cycle_count : Nat) (events : List Event)
  | ClearCache
  | InvalidateCacheRange (start_address length : Nat)
  | Reset
  | HaltExecution
  | SetCpsr (value : Nat)
  | ClearExclusiveState
  | SetFpscr (value : Nat)
  | SaveContext
  | LoadContext (ctx : Context)
  | Disassemble (descriptor : LocationDescriptor)

/-- The engine after one public call, or the fatal fault the call ends in. `SaveContext` is
`const`: it returns a snapshot and leaves the engine as it is. -/
def Invoke (B : Backend BlockOfCode EmitX64 IRBlock) (s : Jit BlockOfCode EmitX64) :
    Op → Except Fault (Jit BlockOfCode EmitX64)
  | .Run cycle_count events => Run B s cycle_count events
  | .ClearCache => .ok (ClearCache B s)
  | .InvalidateCacheRange start_address length =>
    .ok (InvalidateCacheRange B s start_address length)
  | .Reset => Reset s
  | .HaltExecution => .ok (HaltExecution s)
  | .SetCpsr value => .ok (SetCpsr B s value)
  | .ClearExclusiveState => .ok (ClearExclusiveState s)
  | .SetFpscr value => .ok (SetFpscr B s value)
  | .SaveContext => .ok s
  | .LoadContext ctx => .ok (LoadContext s ctx)
  | .Disassemble descriptor =>
    match Disassemble B s descriptor with
    | .ok r => .ok r.2
    | .error err => .error err

/-- A sequence of public calls, one after the other. -/
def InvokeAll (B : Backend BlockOfCode EmitX64 IRBlock) :
    Jit BlockOfCode EmitX64 → List Op → Except Fault (Jit BlockOfCode EmitX64)
  | s, [] => .ok s
  | s, op :: ops =>
    match Invoke B s op with
    | .ok s1 => InvokeAll B s1 ops
    | .error err => .error err

/-- The number of invalidations (full or ranged) applied so far. -/
def AppliedInvalidations (s : Jit BlockOfCode EmitX64) : Nat :=
  s.trace.countP Call.isFlush

/-- Between `s` and `s1` some `k` invalidations were applied and the generation moved by `k`
modulo 2^64. -/
def Tracks (s s1 : Jit BlockOfCode EmitX64) : Prop :=
  ∃ k, AppliedInvalidations s1 = AppliedInvalidations s + k ∧
    s1.invalid_cache_generation % SIZE_T_MOD = (s.invalid_cache_generation + k) % SIZE_T_MOD

/-- The graph `GetBasicBlock` hands to the emitter for a key: translation followed by the four
passes that precede verification. -/
def Pipeline (B : Backend BlockOfCode EmitX64 IRBlock) (descriptor : LocationDescriptor) :
    IRBlock :=
  B.DeadCodeElimination (B.ConstantPropagation
    (B.DeadCodeElimination (B.GetSetElimination (B.Translate descriptor))))

/-- The engine state `GetBasicBlock` compiles in after a miss: the flushed one if less than the
minimum code space was left, the unchanged one otherwise. -/
def BeforeCompile (B : Backend BlockOfCode EmitX64 IRBlock) (s : Jit BlockOfCode EmitX64) :
    Jit BlockOfCode EmitX64 :=
  if B.SpaceRemaining s.block_of_code < MINIMUM_REMAINING_CODESIZE then
    PerformCacheInvalidation B { s with invalidate_entire_cache := true }
  else s

/-- Modelled from the spec: the contract of the absent `EmitX64::Emit` and
`EmitX64::GetBasicBlock` (backend_x64/emit_x64.cpp is not among the sources): "otherwise invoke
the Translation Pipeline and insert the result"; the block emitted for a key is the one a
lookup of that key finds afterwards. -/
def EmitCaches (B : Backend BlockOfCode EmitX64 IRBlock) : Prop :=
  ∀ (c : EmitX64 × BlockOfCode) (descriptor : LocationDescriptor),
    B.EmitX64_GetBasicBlock (B.EmitX64_Emit c (Pipeline B descriptor)).2.1 descriptor =
      some (B.EmitX64_Emit c (Pipeline B descriptor)).1

/-- The engine right after `Jit::Jit`: the members of `Jit::Impl` as their initialisers leave
them, on the code buffer and emitter the constructors of the collaborators produce. The
initialiser of `is_executing` is in include/dynarmic/dynarmic.h, which is not among the
sources; the engine of the spec is Idle until `Run` is called, so it starts false. -/
def NewJit (block_of_code : BlockOfCode) (emitter : EmitX64) : Jit BlockOfCode EmitX64 :=
  { is_executing := false
    block_of_code := block_of_code
    jit_state := JitState.default
    emitter := emitter
    invalid_cache_generation := 0
    invalid_cache_ranges := ⟨[]⟩
    invalidate_entire_cache := false
    trace := [] }

/-- The engine is idle and no invalidation request is left unapplied. -/
def IdleClean (s : Jit BlockOfCode EmitX64) : Prop :=
  s.is_executing = false ∧ s.invalidate_entire_cache = false ∧
    s.invalid_cache_ranges.empty = true

end Predicates

/-! ## Operand values (`frontend/ir/value.cpp`)

An `Inst*` is the position of the instruction in the list of instructions of its block.
The accessors that follow `Identity` instructions recurse on a budget of hops; a run that
would need more hops than the budget ends in `Outcome.out_of_fuel`.
-/

namespace IR

/-- Modelled from the spec: `enum class Type` (frontend/ir/value.h is not among the sources),
with the enumerators `value.cpp` names: the discriminants Void, InstructionRef (`Opaque`),
RegisterRef, ExtendedRegisterRef, Bit, Byte, HalfWord, Word, DoubleWord, CoprocessorBlob. -/
inductive IRType where
  | Void
  | Opaque
  | RegRef
  | ExtRegRef
  | U1
  | U8
  | U16
  | U32
  | U64
  | CoprocInfo
deriving DecidableEq, Repr

/-- Modelled from the spec: `enum class Opcode` (frontend/ir/opcodes.h is not among the
sources); `value.cpp` distinguishes `Identity` from every other opcode. -/
inductive Opcode where
  | Identity
  | Other (code : Nat)
deriving DecidableEq, Repr

/-- The class `Value`: the tag `type` together with the member of the union `inner` that the
constructor for that tag writes. `Value()` is `Void`, `Value(Inst*)` is `Opaque`,
`Value(Arm::Reg)` is `RegRef`, `Value(Arm::ExtReg)` is `ExtRegRef`, `Value(bool)` is `U1`,
`Value(u8)` to `Value(u64)` are `U8` to `U64`, `Value(std::array<u8, 8>)` is `CoprocInfo`. -/
inductive Value where
  | Void
  | Opaque (inst : Nat)
  | RegRef (imm_regref : Nat)
  | ExtRegRef (imm_extregref : Nat)
  | U1 (imm_u1 : Bool)
  | U8 (imm_u8 : Nat)
  | U16 (imm_u16 : Nat)
  | U32 (imm_u32 : Nat)
  | U64 (imm_u64 : Nat)
  | CoprocInfo (imm_coproc : List Nat)
deriving DecidableEq, Repr

/-- The member `Value::type`. -/
def Value.type : Value → IRType
  | .Void => .Void
  | .Opaque _ => .Opaque
  | .RegRef _ => .RegRef
  | .ExtRegRef _ => .ExtRegRef
  | .U1 _ => .U1
  | .U8 _ => .U8
  | .U16 _ => .U16
  | .U32 _ => .U32
  | .U64 _ => .U64
  | .CoprocInfo _ => .CoprocInfo

/-- Modelled from the spec: the class `Inst` (frontend/ir/microinstruction.h is not among the
sources): an operation node "has an opcode and an ordered list of Operand Values as
arguments"; `return_type` is what `Inst::GetType` answers. -/
structure Inst where
  op : Opcode
  args : List Value
  return_type : IRType
deriving DecidableEq, Repr

/-- The method `Inst::GetOpcode`. -/
def Inst.GetOpcode (inst : Inst) : Opcode := inst.op

/-- The method `Inst::GetType`. -/
def Inst.GetType (inst : Inst) : IRType := inst.return_type

/-- The method `Inst::GetArg`; `none` where the instruction has no such argument. -/
def Inst.GetArg (inst : Inst) (index : Nat) : Option Value := inst.args[index]?

/-- How a call of an accessor ends: it returns, an `ASSERT` fails (contract violation), it
dereferences an `Inst*` that is no instruction of the block or asks for an argument the
instruction does not have, or it has not returned within the budget of hops. -/
inductive Outcome (α : Type) where
  | ok (value : α)
  | assert_failed
  | invalid_reference
  | out_of_fuel
deriving DecidableEq, Repr

/-- The method `Value::IsImmediate`. -/
def Value.IsImmediate (block : List Inst) : Nat → Value → Outcome Bool
  | fuel, .Opaque inst =>
    match block[inst]? with
    | none => .invalid_reference
    | some node =>
      if node.GetOpcode = Opcode.Identity then
        match node.GetArg 0 with
        | none => .invalid_reference
        | some arg =>
          match fuel with
          | 0 => .out_of_fuel
          | fuel + 1 => Value.IsImmediate block fuel arg
      else .ok false
  | _, _ => .ok true

/-- The method `Value::IsEmpty`. -/
def Value.IsEmpty (v : Value) : Bool := decide (v.type = IRType.Void)

/-- The method `Value::GetType`. -/
def Value.GetType (block : List Inst) : Nat → Value → Outcome IRType
  | fuel, .Opaque inst =>
    match block[inst]? with
    | none => .invalid_reference
    | some node =>
      if node.GetOpcode = Opcode.Identity then
        match node.GetArg 0 with
        | none => .invalid_reference
        | some arg =>
          match fuel with
          | 0 => .out_of_fuel
          | fuel + 1 => Value.GetType block fuel arg
      else .ok node.GetType
  | _, v => .ok v.type

/-- The method `Value::GetRegRef`. -/
def Value.GetRegRef : Value → Outcome Nat
  | .RegRef imm_regref => .ok imm_regref
  | _ => .assert_failed

/-- The method `Value::GetExtRegRef`. -/
def Value.GetExtRegRef : Value → Outcome Nat
  | .ExtRegRef imm_extregref => .ok imm_extregref
  | _ => .assert_failed

/-- The method `Value::GetInst`. -/
def Value.GetInst : Value → Outcome Nat
  | .Opaque inst => .ok inst
  | _ => .assert_failed

/-- The method `Value::GetU1`. -/
def Value.GetU1 (block : List Inst) : Nat → Value → Outcome Bool
  | fuel, .Opaque inst =>
    match block[inst]? with
    | none => .invalid_reference
    | some node =>
      if node.GetOpcode = Opcode.Identity then
        match node.GetArg 0 with
        | none => .invalid_reference
        | some arg =>
          match fuel with
          | 0 => .out_of_fuel
          | fuel + 1 => Value.GetU1 block fuel arg
      else .assert_failed
  | _, .U1 imm_u1 => .ok imm_u1
  | _, _ => .assert_failed

/-- The method `Value::GetU8`. -/
def Value.GetU8 (block : List Inst) : Nat → Value → Outcome Nat
  | fuel, .Opaque inst =>
    match block[inst]? with
    | none => .invalid_reference
    | some node =>
      if node.GetOpcode = Opcode.Identity then
        match node.GetArg 0 with
        | none => .invalid_reference
        | some arg =>
          match fuel with
          | 0 => .out_of_fuel
          | fuel + 1 => Value.GetU8 block fuel arg
      else .assert_failed
  | _, .U8 imm_u8 => .ok imm_u8
  | _, _ => .assert_failed

/-- The method `Value::GetU16`. -/
def Value.GetU16 (block : List Inst) : Nat → Value → Outcome Nat
  | fuel, .Opaque inst =>
    match block[inst]? with
    | none => .invalid_reference
    | some node =>
      if node.GetOpcode = Opcode.Identity then
        match node.GetArg 0 with
        | none => .invalid_reference
        | some arg =>
          match fuel with
          | 0 => .out_of_fuel
          | fuel + 1 => Value.GetU16 block fuel arg
      else .assert_failed
  | _, .U16 imm_u16 => .ok imm_u16
  | _, _ => .assert_failed

/-- The method `Value::GetU32`. -/
def Value.GetU32 (block : List Inst) : Nat → Value → Outcome Nat
  | fuel, .Opaque inst =>
    match block[inst]? with
    | none => .invalid_reference
    | some node =>
      if node.GetOpcode = Opcode.Identity then
        match node.GetArg 0 with
        | none => .invalid_reference
        | some arg =>
          match fuel with
          | 0 => .out_of_fuel
          | fuel + 1 => Value.GetU32 block fuel arg
      else .assert_failed
  | _, .U32 imm_u32 => .ok imm_u32
  | _, _ => .assert_failed

/-- The method `Value::GetU64`. -/
def Value.GetU64 (block : List Inst) : Nat → Value → Outcome Nat
  | fuel, .Opaque inst =>
    match block[inst]? with
    | none => .invalid_reference
    | some node =>
      if node.GetOpcode = Opcode.Identity then
        match node.GetArg 0 with
        | none => .invalid_reference
        | some arg =>
          match fuel with
          | 0 => .out_of_fuel
          | fuel + 1 => Value.GetU64 block fuel arg
      else .assert_failed
  | _, .U64 imm_u64 => .ok imm_u64
  | _, _ => .assert_failed

/-- The method `Value::GetCoprocInfo`. -/
def Value.GetCoprocInfo (block : List Inst) : Nat → Value → Outcome (List Nat)
  | fuel, .Opaque inst =>
    match block[inst]? with
    | none => .invalid_reference
    | some node =>
      if node.GetOpcode = Opcode.Identity then
        match node.GetArg 0 with
        | none => .invalid_reference
        | some arg =>
          match fuel with
          | 0 => .out_of_fuel
          | fuel + 1 => Value.GetCoprocInfo block fuel arg
      else .assert_failed
  | _, .CoprocInfo imm_coproc => .ok imm_coproc
  | _, _ => .assert_failed

/-! ### Identity chains and acyclic blocks -/

/-- The value `v` with every `Identity` instruction followed to its first argument: the final
operand that is not a reference to an `Identity` instruction. -/
def Value.Resolve (block : List Inst) : Nat → Value → Outcome Value
  | fuel, .Opaque inst =>
    match block[inst]? with
    | none => .invalid_reference
    | some node =>
      if node.GetOpcode = Opcode.Identity then
        match node.GetArg 0 with
        | none => .invalid_reference
        | some arg =>
          match fuel with
          | 0 => .out_of_fuel
          | fuel + 1 => Value.Resolve block fuel arg
      else .ok (.Opaque inst)
  | _, v => .ok v

/-- The common shape of the accessors that follow identities: on a reference to an `Identity`
instruction go on with its first argument, on a reference to another instruction answer
`onNode`, on every other value answer `onValue`. -/
def Chase {α : Type} (block : List Inst) (onNode : Inst → Outcome α)
    (onValue : Value → Outcome α) : Nat → Value → Outcome α
  | fuel, .Opaque inst =>
    match block[inst]? with
    | none => .invalid_reference
    | some node =>
      if node.GetOpcode = Opcode.Identity then
        match node.GetArg 0 with
        | none => .invalid_reference
        | some arg =>
          match fuel with
          | 0 => .out_of_fuel
          | fuel + 1 => Chase block onNode onValue fuel arg
      else onNode node
  | _, v => onValue v

/-- The operand `v` is not a reference to an `Identity` instruction of the block. -/
def NotIdentityRef (block : List Inst) : Value → Bool
  | .Opaque inst =>
    match block[inst]? with
    | none => true
    | some node => !decide (node.GetOpcode = Opcode.Identity)
  | _ => true

/-- The value `w` is a reference to a chain of `n` nested `Identity` instructions whose
innermost first argument is `v` (for `n = 0` it is `v` itself). -/
def IdentityChain (block : List Inst) : Nat → Value → Value → Bool
  | 0, w, v => decide (w = v)
  | n + 1, .Opaque inst, v =>
    match block[inst]? with
    | none => false
    | some node =>
      decide (node.GetOpcode = Opcode.Identity) &&
        (match node.GetArg 0 with
          | none => false
          | some arg => IdentityChain block n arg v)
  | _ + 1, _, _ => false

/-- Every argument of the instructions at positions `first`, `first + 1`, ... that is a
reference refers to a strictly earlier position. -/
def AcyclicFrom (first : Nat) : List Inst → Bool
  | [] => true
  | node :: rest =>
    node.args.all (fun arg =>
      match arg with
      | .Opaque inst => decide (inst < first)
      | _ => true) &&
    AcyclicFrom (first + 1) rest

/-- The block is acyclic by topological index: every argument that is a reference refers to a
strictly earlier instruction. -/
def Acyclic (block : List Inst) : Bool := AcyclicFrom 0 block

/-- The block is acyclic and every `Identity` instruction has a first argument. -/
def WellFormed (block : List Inst) : Bool :=
  Acyclic block &&
    block.all (fun node => !decide (node.GetOpcode = Opcode.Identity) || !node.args.isEmpty)

/-- The operand is a value of the block: if it is a reference, it refers to one of the
instructions of the block. -/
def Value.ValidIn (block : List Inst) : Value → Bool
  | .Opaque inst => decide (inst < block.length)
  | _ => true

/-- The topological index of the instruction an operand refers to, counted from 1; 0 for an
operand that is not a reference. -/
def Value.rank : Value → Nat
  | .Opaque inst => inst + 1
  | _ => 0

/-- A block for examples: instruction 0 computes something of type `U32`, instruction 1 is
an `Identity` of the byte 7, instructions 2 and 3 are identities of instruction 1 and 2,
instruction 4 is an `Identity` of register reference 3, instruction 5 an `Identity` of
instruction 0. -/
def demoBlock : List Inst :=
  [ ⟨Opcode.Other 1, [Value.U32 5, Value.U32 6], IRType.U32⟩,
    ⟨Opcode.Identity, [Value.U8 7], IRType.U8⟩,
    ⟨Opcode.Identity, [Value.Opaque 1], IRType.U8⟩,
    ⟨Opcode.Identity, [Value.Opaque 2], IRType.U8⟩,
    ⟨Opcode.Identity, [Value.RegRef 3], IRType.Opaque⟩,
    ⟨Opcode.Identity, [Value.Opaque 0], IRType.U32⟩ ]

/-- A block with a cycle: instruction 0 is an `Identity` of itself. -/
def cyclicBlock : List Inst :=
  [ ⟨Opcode.Identity, [Value.Opaque 0], IRType.U32⟩ ]

end IR

/-! ## Theorems -/

section Theorems

variable {BlockOfCode EmitX64 IRBlock : Type}

theorem IntervalSet.join_mem (x : Nat) (l : List (Nat × Nat)) :
    ∀ lo hi : Nat, lo ≤ hi →
      ((∃ r ∈ IntervalSet.join lo hi l, r.1 ≤ x ∧ x ≤ r.2) ↔
        ((lo ≤ x ∧ x ≤ hi) ∨ ∃ r ∈ l, r.1 ≤ x ∧ x ≤ r.2)) := by
  induction l with
  | nil => intro lo hi _; simp [IntervalSet.join]
  | cons p rest ih =>
    intro lo hi hle
    obtain ⟨a, b⟩ := p
    unfold IntervalSet.join
    split
    · simp
    · split
      · simp only [List.mem_cons, exists_eq_or_imp]
        rw [ih lo hi hle]
        tauto
      · rw [ih (min lo a) (max hi b) (le_trans (min_le_left _ _) (le_trans hle (le_max_left _ _)))]
        simp only [List.mem_cons, exists_eq_or_imp]
        constructor
        · rintro (⟨h1, h2⟩ | h)
          · rcases le_total lo a with hla | hla <;> rcases le_total hi b with hhb | hhb <;>
              simp only [min_eq_left, min_eq_right, max_eq_left, max_eq_right, hla, hhb] at h1 h2 <;>
              omega
          · exact Or.inr (Or.inr h)
        · rintro (⟨h1, h2⟩ | ⟨h1, h2⟩ | h)
          · exact Or.inl ⟨le_trans (min_le_left _ _) h1, le_trans h2 (le_max_left _ _)⟩
          · exact Or.inl ⟨le_trans (min_le_right _ _) h1, le_trans h2 (le_max_right _ _)⟩
          · exact Or.inr h

theorem IntervalSet.contains_iff (rs : IntervalSet) (x : Nat) :
    rs.contains x = true ↔ ∃ r ∈ rs.intervals, r.1 ≤ x ∧ x ≤ r.2 := by
  simp [IntervalSet.contains]

theorem IntervalSet.contains_add (rs : IntervalSet) (lo hi x : Nat) :
    (rs.add lo hi).contains x = true ↔ ((lo ≤ x ∧ x ≤ hi) ∨ rs.contains x = true) := by
  unfold IntervalSet.add
  split
  · constructor
    · exact Or.inr
    · rintro (⟨h1, h2⟩ | h)
      · omega
      · exact h
  · rw [IntervalSet.contains_iff, IntervalSet.contains_iff]
    exact IntervalSet.join_mem x rs.intervals lo hi (by omega)

theorem IntervalSet.join_ne_nil (l : List (Nat × Nat)) :
    ∀ lo hi : Nat, IntervalSet.join lo hi l ≠ [] := by
  induction l with
  | nil => intro lo hi; simp [IntervalSet.join]
  | cons p rest ih =>
    intro lo hi
    obtain ⟨a, b⟩ := p
    unfold IntervalSet.join
    split
    · simp
    · split
      · simp
      · exact ih _ _

theorem IntervalSet.add_not_empty (rs : IntervalSet) (lo hi : Nat) (h : lo ≤ hi) :
    (rs.add lo hi).empty = false := by
  unfold IntervalSet.add IntervalSet.empty
  rw [if_neg (by omega)]
  have := IntervalSet.join_ne_nil rs.intervals lo hi
  cases hj : IntervalSet.join lo hi rs.intervals with
  | nil => exact absurd hj this
  | cons _ _ => rfl

theorem Quiet_refl (s : Jit BlockOfCode EmitX64) : Quiet s s :=
  ⟨rfl, rfl, ⟨[], by simp⟩, id, fun _ h => h⟩

theorem Quiet_trans {s s1 s2 : Jit BlockOfCode EmitX64} (h1 : Quiet s s1) (h2 : Quiet s1 s2) :
    Quiet s s2 := by
  obtain ⟨n1, e1, a1⟩ := h1.trace
  obtain ⟨n2, e2, a2⟩ := h2.trace
  refine ⟨h2.executing.trans h1.executing, h2.generation.trans h1.generation,
    ⟨n1 ++ n2, ?_, ?_⟩, fun h => h2.entire (h1.entire h), fun x h => h2.ranges x (h1.ranges x h)⟩
  · rw [e2, e1, List.append_assoc]
  · intro c hc
    rcases List.mem_append.mp hc with hc | hc
    · exact a1 c hc
    · exact a2 c hc

theorem GetBasicBlock_quiet (B : Backend BlockOfCode EmitX64 IRBlock)
    (s : Jit BlockOfCode EmitX64) (descriptor : LocationDescriptor)
    (r : BlockDescriptor × Jit BlockOfCode EmitX64)
    (hdue : ((B.EmitX64_GetBasicBlock s.emitter descriptor).isNone &&
      decide (B.SpaceRemaining s.block_of_code < MINIMUM_REMAINING_CODESIZE)) = false)
    (h : GetBasicBlock B s descriptor = .ok r) :
    Quiet s r.2 ∧ r.2.jit_state = s.jit_state ∧
      r.2.invalidate_entire_cache = s.invalidate_entire_cache ∧
      r.2.invalid_cache_ranges = s.invalid_cache_ranges := by
  unfold GetBasicBlock at h
  split at h
  · cases h
    exact ⟨Quiet_refl s, rfl, rfl, rfl⟩
  · rename_i hnone
    rw [hnone] at hdue
    simp only [Option.isNone_none, Bool.true_and, decide_eq_false_iff_not] at hdue
    simp only [if_neg hdue] at h
    split at h
    · cases h
      exact ⟨⟨rfl, rfl, ⟨_, rfl, by simp [Call.isInvalidating]⟩, id, fun _ hx => hx⟩, rfl, rfl, rfl⟩
    · cases h

theorem ExecuteEvent_quiet (B : Backend BlockOfCode EmitX64 IRBlock)
    (s s1 : Jit BlockOfCode EmitX64) (e : Event) (hx : s.is_executing = true)
    (hav : AvoidsCapacityFlush B s [e] = true) (h : ExecuteEvent B s e = .ok s1) :
    Quiet s s1 := by
  cases e with
  | GetCurrentBlock =>
    simp only [AvoidsCapacityFlush, Bool.and_eq_true, Bool.not_eq_true'] at hav
    have hdue := hav.1
    unfold CapacityFlushDue at hdue
    simp only [ExecuteEvent, GetCurrentBlock] at h
    cases hg : GetBasicBlock B s (CurrentDescriptor B s.jit_state) with
    | error err => rw [hg] at h; cases h
    | ok r =>
      rw [hg] at h
      obtain ⟨block, s2⟩ := r
      cases h
      exact (GetBasicBlock_quiet B s _ (block, s2) hdue hg).1
  | Guest f =>
    cases h
    exact ⟨rfl, rfl, ⟨[], by simp⟩, id, fun _ hm => hm⟩
  | ClearCache =>
    cases h
    refine ⟨?_, ?_, ⟨[], ?_⟩, ?_, ?_⟩ <;>
      simp [ClearCache, RequestCacheInvalidation, hx]
  | InvalidateCacheRange start_address length =>
    cases h
    refine ⟨?_, ?_, ⟨[], ?_⟩, ?_, ?_⟩
    · simp [InvalidateCacheRange, RequestCacheInvalidation, hx]
    · simp [InvalidateCacheRange, RequestCacheInvalidation, hx]
    · simp [InvalidateCacheRange, RequestCacheInvalidation, hx]
    · simp [InvalidateCacheRange, RequestCacheInvalidation, hx]
    · intro x hm
      simp only [InvalidateCacheRange, RequestCacheInvalidation, hx, if_true]
      exact (IntervalSet.contains_add _ _ _ _).mpr (Or.inr hm)
  | HaltExecution =>
    cases h
    exact ⟨rfl, rfl, ⟨[], by simp [HaltExecution]⟩, id, fun _ hm => hm⟩

theorem AvoidsCapacityFlush_cons (B : Backend BlockOfCode EmitX64 IRBlock)
    (s s1 : Jit BlockOfCode EmitX64) (e : Event) (es : List Event)
    (hav : AvoidsCapacityFlush B s (e :: es) = true) (h : ExecuteEvent B s e = .ok s1) :
    AvoidsCapacityFlush B s [e] = true ∧ AvoidsCapacityFlush B s1 es = true := by
  simp only [AvoidsCapacityFlush, h, Bool.and_eq_true] at hav ⊢
  exact ⟨⟨hav.1, trivial⟩, hav.2⟩

theorem Execute_quiet (B : Backend BlockOfCode EmitX64 IRBlock) (events : List Event) :
    ∀ s s3 : Jit BlockOfCode EmitX64, s.is_executing = true →
      AvoidsCapacityFlush B s events = true → Execute B s events = .ok s3 → Quiet s s3 := by
  induction events with
  | nil =>
    intro s s3 _ _ h
    simp only [Execute] at h
    cases h
    exact Quiet_refl s
  | cons e es ih =>
    intro s s3 hx hav h
    simp only [Execute] at h
    cases he : ExecuteEvent B s e with
    | error err => rw [he] at h; cases h
    | ok s1 =>
      rw [he] at h
      obtain ⟨hav1, hav2⟩ := AvoidsCapacityFlush_cons B s s1 e es hav he
      have q1 := ExecuteEvent_quiet B s s1 e hx hav1 he
      exact Quiet_trans q1 (ih s1 s3 (q1.executing.trans hx) hav2 h)

theorem Execute_entire (B : Backend BlockOfCode EmitX64 IRBlock) (events : List Event) :
    ∀ s s3 : Jit BlockOfCode EmitX64, s.is_executing = true →
      AvoidsCapacityFlush B s events = true → Execute B s events = .ok s3 →
      Event.ClearCache ∈ events → s3.invalidate_entire_cache = true := by
  induction events with
  | nil => intro s s3 _ _ _ hm; cases hm
  | cons e es ih =>
    intro s s3 hx hav h hm
    simp only [Execute] at h
    cases he : ExecuteEvent B s e with
    | error err => rw [he] at h; cases h
    | ok s1 =>
      rw [he] at h
      obtain ⟨hav1, hav2⟩ := AvoidsCapacityFlush_cons B s s1 e es hav he
      have q1 := ExecuteEvent_quiet B s s1 e hx hav1 he
      have hx1 : s1.is_executing = true := q1.executing.trans hx
      rcases List.mem_cons.mp hm with hm | hm
      · subst hm
        have hs1 : s1.invalidate_entire_cache = true := by
          cases he
          simp [ClearCache, RequestCacheInvalidation, hx]
        exact (Execute_quiet B es s1 s3 hx1 hav2 h).entire hs1
      · exact ih s1 s3 hx1 hav2 h hm

theorem GetBasicBlock_returns (B : Backend BlockOfCode EmitX64 IRBlock)
    (hv : ∀ ir_block, B.VerificationPass ir_block = true) (s : Jit BlockOfCode EmitX64)
    (descriptor : LocationDescriptor) : ∃ r, GetBasicBlock B s descriptor = .ok r := by
  unfold GetBasicBlock
  cases B.EmitX64_GetBasicBlock s.emitter descriptor with
  | some block => exact ⟨_, rfl⟩
  | none => simp only [hv, if_true]; exact ⟨_, rfl⟩

/-- With a verification pass that accepts every graph no event of the execution phase is
fatal, so `Execute` returns. -/
theorem Execute_returns (B : Backend BlockOfCode EmitX64 IRBlock)
    (hv : ∀ ir_block, B.VerificationPass ir_block = true) (events : List Event) :
    ∀ s : Jit BlockOfCode EmitX64, ∃ s3, Execute B s events = .ok s3 := by
  induction events with
  | nil => intro s; exact ⟨s, rfl⟩
  | cons e es ih =>
    intro s
    have he : ∃ s1, ExecuteEvent B s e = .ok s1 := by
      cases e with
      | GetCurrentBlock =>
        obtain ⟨r, hr⟩ := GetBasicBlock_returns B hv s (CurrentDescriptor B s.jit_state)
        exact ⟨r.2, by simp only [ExecuteEvent, GetCurrentBlock, hr]⟩
      | Guest f => exact ⟨_, rfl⟩
      | ClearCache => exact ⟨_, rfl⟩
      | InvalidateCacheRange a l => exact ⟨_, rfl⟩
      | HaltExecution => exact ⟨_, rfl⟩
    obtain ⟨s1, he⟩ := he
    obtain ⟨s3, h3⟩ := ih s1
    exact ⟨s3, by simp only [Execute, he, h3]⟩

theorem PerformCacheInvalidation_full (B : Backend BlockOfCode EmitX64 IRBlock)
    (s : Jit BlockOfCode EmitX64) (h : s.invalidate_entire_cache = true) :
    PerformCacheInvalidation B s =
      { s with
        jit_state := s.jit_state.ResetRSB
        block_of_code :=
          (B.EmitX64_ClearCache (s.emitter, B.BlockOfCode_ClearCache s.block_of_code)).2
        emitter := (B.EmitX64_ClearCache (s.emitter, B.BlockOfCode_ClearCache s.block_of_code)).1
        invalid_cache_ranges := ⟨[]⟩
        invalidate_entire_cache := false
        invalid_cache_generation := (s.invalid_cache_generation + 1) % SIZE_T_MOD
        trace :=
          s.trace ++ [Call.ResetRSB, Call.BlockOfCode_ClearCache, Call.EmitX64_ClearCache] } := by
  simp [PerformCacheInvalidation, h, IntervalSet.clear]

theorem PerformCacheInvalidation_ranges (B : Backend BlockOfCode EmitX64 IRBlock)
    (s : Jit BlockOfCode EmitX64) (h : s.invalidate_entire_cache = false)
    (hr : s.invalid_cache_ranges.empty = false) :
    PerformCacheInvalidation B s =
      { s with
        jit_state := s.jit_state.ResetRSB
        block_of_code :=
          (B.EmitX64_InvalidateCacheRanges (s.emitter, s.block_of_code) s.invalid_cache_ranges).2
        emitter :=
          (B.EmitX64_InvalidateCacheRanges (s.emitter, s.block_of_code) s.invalid_cache_ranges).1
        invalid_cache_ranges := ⟨[]⟩
        invalid_cache_generation := (s.invalid_cache_generation + 1) % SIZE_T_MOD
        trace :=
          s.trace ++
            [Call.ResetRSB, Call.EmitX64_InvalidateCacheRanges s.invalid_cache_ranges] } := by
  simp [PerformCacheInvalidation, h, hr, IntervalSet.clear]

theorem PerformCacheInvalidation_nothing (B : Backend BlockOfCode EmitX64 IRBlock)
    (s : Jit BlockOfCode EmitX64) (h : s.invalidate_entire_cache = false)
    (hr : s.invalid_cache_ranges.empty = true) :
    PerformCacheInvalidation B s = s := by
  simp [PerformCacheInvalidation, h, hr]

/-- C1 (as stated, refuted): at the largest `size_t` generation an applied full flush does not
make the generation one greater; the counter wraps to zero. -/
theorem C1_counterexample_generation_wraps :
    (demoJit false 0 [] (2 ^ 64 - 1) [] true).invalidate_entire_cache = true ∧
    (PerformCacheInvalidation demoBackend
        (demoJit false 0 [] (2 ^ 64 - 1) [] true)).invalid_cache_generation = 0 ∧
    (PerformCacheInvalidation demoBackend
        (demoJit false 0 [] (2 ^ 64 - 1) [] true)).invalid_cache_generation ≠
      (demoJit false 0 [] (2 ^ 64 - 1) [] true).invalid_cache_generation + 1 := by
  refine ⟨rfl, ?_, ?_⟩ <;>
    simp [PerformCacheInvalidation, demoJit, SIZE_T_MOD]

/-- C1 (amended): `PerformCacheInvalidation` steps the generation by one modulo 2^64 (by
exactly one below the largest `size_t` value) when the full-flush flag is set or a range is
pending, and changes nothing at all when nothing is pending; `Reset`, `HaltExecution`,
`LoadContext`, `SetCpsr`, `SetFpscr` and `ClearExclusiveState` keep the generation
(`SaveContext` is `const` and returns only the snapshot). -/
theorem C1_generation_changes_only_by_applied_invalidation
    (B : Backend BlockOfCode EmitX64 IRBlock) (s : Jit BlockOfCode EmitX64)
    (ctx : Context) (value : Nat) :
    ((s.invalidate_entire_cache = true ∨ s.invalid_cache_ranges.empty = false) →
      (PerformCacheInvalidation B s).invalid_cache_generation =
          (s.invalid_cache_generation + 1) % SIZE_T_MOD ∧
        (s.invalid_cache_generation + 1 < SIZE_T_MOD →
          (PerformCacheInvalidation B s).invalid_cache_generation =
            s.invalid_cache_generation + 1)) ∧
    ((s.invalidate_entire_cache = false ∧ s.invalid_cache_ranges.empty = true) →
      PerformCacheInvalidation B s = s) ∧
    (∀ s1, Reset s = .ok s1 → s1.invalid_cache_generation = s.invalid_cache_generation) ∧
    (HaltExecution s).invalid_cache_generation = s.invalid_cache_generation ∧
    (LoadContext s ctx).invalid_cache_generation = s.invalid_cache_generation ∧
    (SetCpsr B s value).invalid_cache_generation = s.invalid_cache_generation ∧
    (SetFpscr B s value).invalid_cache_generation = s.invalid_cache_generation ∧
    (ClearExclusiveState s).invalid_cache_generation = s.invalid_cache_generation := by
  refine ⟨?_, ?_, ?_, rfl, rfl, rfl, rfl, rfl⟩
  · intro h
    have hgen : (PerformCacheInvalidation B s).invalid_cache_generation =
        (s.invalid_cache_generation + 1) % SIZE_T_MOD := by
      cases hf : s.invalidate_entire_cache with
      | true => rw [PerformCacheInvalidation_full B s hf]
      | false =>
        have hr : s.invalid_cache_ranges.empty = false := by
          rcases h with h | h
          · rw [hf] at h; cases h
          · exact h
        rw [PerformCacheInvalidation_ranges B s hf hr]
    exact ⟨hgen, fun hlt => by rw [hgen, Nat.mod_eq_of_lt hlt]⟩
  · rintro ⟨hf, hr⟩
    exact PerformCacheInvalidation_nothing B s hf hr
  · intro s1 h
    unfold Reset at h
    split at h
    · cases h
    · cases h; rfl

/-- C1 witness: a pending full flush at generation 7 gives generation 8, and an engine with
nothing pending is left as it is. -/
theorem C1_generation_changes_only_by_applied_invalidation_witness :
    (PerformCacheInvalidation demoBackend (demoJit false 0 [] 7 [] true)).invalid_cache_generation
        = 7 + 1 ∧
    PerformCacheInvalidation demoBackend (demoJit false 0 [] 7 [] false) =
      demoJit false 0 [] 7 [] false ∧
    (∀ s1, Reset (demoJit false 0 [] 7 [(1, 2)] false) = .ok s1 →
      s1.invalid_cache_generation = 7) :=
  ⟨((C1_generation_changes_only_by_applied_invalidation demoBackend
      (demoJit false 0 [] 7 [] true) Context.default 0).1 (Or.inl rfl)).2 (by decide),
    (C1_generation_changes_only_by_applied_invalidation demoBackend
      (demoJit false 0 [] 7 [] false) Context.default 0).2.1 ⟨rfl, rfl⟩,
    (C1_generation_changes_only_by_applied_invalidation demoBackend
      (demoJit false 0 [] 7 [(1, 2)] false) Context.default 0).2.2.1⟩

theorem RangeUpper_fits (start_address length : Nat) (hlen : 1 ≤ length)
    (hfit : start_address + length ≤ U32_MOD) :
    RangeUpper start_address length = start_address + length - 1 := by
  unfold RangeUpper
  unfold U32_MOD at hfit
  unfold SIZE_T_MOD U32_MOD
  omega

theorem IntervalSet.contains_not_empty (rs : IntervalSet) (x : Nat)
    (h : rs.contains x = true) : rs.empty = false := by
  obtain ⟨r, hr, _⟩ := (IntervalSet.contains_iff rs x).mp h
  unfold IntervalSet.empty
  cases hi : rs.intervals with
  | nil => rw [hi] at hr; cases hr
  | cons _ _ => rfl

/-- C2 (as stated, refuted): on an executing engine `InvalidateCacheRange` with start
0xFFFFFFFF and length 2 does not add the interval to the pending ranges: the truncated upper
bound is 0, the interval is empty, and afterwards no range is pending, the start address
0xFFFFFFFF included; only `halt_requested` is set. -/
theorem C2_counterexample_crossing_range_not_recorded :
    (demoJit true 4096 [] 3 [] false).is_executing = true ∧
    (InvalidateCacheRange demoBackend (demoJit true 4096 [] 3 [] false)
        0xFFFFFFFF 2).invalid_cache_ranges = ⟨[]⟩ ∧
    (InvalidateCacheRange demoBackend (demoJit true 4096 [] 3 [] false)
        0xFFFFFFFF 2).invalid_cache_ranges.contains 0xFFFFFFFF = false ∧
    (InvalidateCacheRange demoBackend (demoJit true 4096 [] 3 [] false)
        0xFFFFFFFF 2).invalid_cache_ranges.empty = true ∧
    (InvalidateCacheRange demoBackend (demoJit true 4096 [] 3 [] false)
        0xFFFFFFFF 2).jit_state.halt_requested = true := by
  decide

/-- C2 (amended): while the engine is executing, `ClearCache` only sets the full-flush flag
and `InvalidateCacheRange` only changes the pending ranges, and both set `halt_requested`;
generation, code buffer, block table, trace of collaborator calls, return-stack buffer and
guest registers and flags are as before. For a range inside the 32-bit address space (length
at least 1, start + length - 1 at most 0xFFFFFFFF) the addresses pending afterwards are
exactly the addresses of `[start, start + length - 1]` and the addresses pending before, so
something is pending. -/
theorem C2_requests_while_executing_only_record
    (B : Backend BlockOfCode EmitX64 IRBlock) (s : Jit BlockOfCode EmitX64)
    (start_address length : Nat) (h : s.is_executing = true) :
    ClearCache B s =
      { s with
        invalidate_entire_cache := true
        jit_state := { s.jit_state with halt_requested := true } } ∧
    InvalidateCacheRange B s start_address length =
      { s with
        invalid_cache_ranges :=
          s.invalid_cache_ranges.add start_address (RangeUpper start_address length)
        jit_state := { s.jit_state with halt_requested := true } } ∧
    (∀ s1, s1 = ClearCache B s ∨ s1 = InvalidateCacheRange B s start_address length →
      s1.jit_state.halt_requested = true ∧
      s1.invalid_cache_generation = s.invalid_cache_generation ∧
      s1.block_of_code = s.block_of_code ∧
      s1.emitter = s.emitter ∧
      s1.trace = s.trace ∧
      s1.is_executing = true ∧
      TransferJitState s.jit_state s1.jit_state false = s.jit_state ∧
      s1.jit_state.exclusive_state = s.jit_state.exclusive_state) ∧
    (ClearCache B s).invalidate_entire_cache = true ∧
    (ClearCache B s).invalid_cache_ranges = s.invalid_cache_ranges ∧
    (InvalidateCacheRange B s start_address length).invalidate_entire_cache =
      s.invalidate_entire_cache ∧
    (1 ≤ length → start_address + length ≤ U32_MOD →
      (∀ x, (InvalidateCacheRange B s start_address length).invalid_cache_ranges.contains x
            = true ↔
          ((start_address ≤ x ∧ x ≤ start_address + length - 1) ∨
            s.invalid_cache_ranges.contains x = true)) ∧
      (InvalidateCacheRange B s start_address length).invalid_cache_ranges.empty = false) := by
  have hc : ClearCache B s =
      { s with
        invalidate_entire_cache := true
        jit_state := { s.jit_state with halt_requested := true } } := by
    simp [ClearCache, RequestCacheInvalidation, h]
  have hi : InvalidateCacheRange B s start_address length =
      { s with
        invalid_cache_ranges :=
          s.invalid_cache_ranges.add start_address (RangeUpper start_address length)
        jit_state := { s.jit_state with halt_requested := true } } := by
    simp [InvalidateCacheRange, RequestCacheInvalidation, h]
  refine ⟨hc, hi, ?_, by rw [hc], by rw [hc], by rw [hi], ?_⟩
  · rintro s1 (rfl | rfl)
    · rw [hc]; simp [TransferJitState, h]
    · rw [hi]; simp [TransferJitState, h]
  · intro hlen hfit
    rw [hi, RangeUpper_fits start_address length hlen hfit]
    exact ⟨fun x => IntervalSet.contains_add _ _ _ x,
      IntervalSet.add_not_empty _ _ _ (by omega)⟩

/-- C2 witness: an executing engine with two cached blocks at generation 3 and the range
`[0x2000, 0x2003]` pending; after `InvalidateCacheRange(0x1000, 4)` the addresses 0x1000 to
0x1003 and the old ones are pending, 0x1004 is not, and block table and generation are as
before. -/
theorem C2_requests_while_executing_only_record_witness :
    (demoJit true 4096 [(⟨0x1000, 0, 0⟩, ⟨0, 64⟩), (⟨0x2000, 0, 0⟩, ⟨64, 64⟩)] 3
        [(0x2000, 0x2003)] false).is_executing = true ∧
    (ClearCache demoBackend
        (demoJit true 4096 [(⟨0x1000, 0, 0⟩, ⟨0, 64⟩), (⟨0x2000, 0, 0⟩, ⟨64, 64⟩)] 3
          [(0x2000, 0x2003)] false)).emitter
      = ⟨[(⟨0x1000, 0, 0⟩, ⟨0, 64⟩), (⟨0x2000, 0, 0⟩, ⟨64, 64⟩)]⟩ ∧
    (InvalidateCacheRange demoBackend
        (demoJit true 4096 [(⟨0x1000, 0, 0⟩, ⟨0, 64⟩), (⟨0x2000, 0, 0⟩, ⟨64, 64⟩)] 3
          [(0x2000, 0x2003)] false)
        0x1000 4).invalid_cache_generation = 3 ∧
    (InvalidateCacheRange demoBackend
        (demoJit true 4096 [(⟨0x1000, 0, 0⟩, ⟨0, 64⟩), (⟨0x2000, 0, 0⟩, ⟨64, 64⟩)] 3
          [(0x2000, 0x2003)] false)
        0x1000 4).invalid_cache_ranges.contains 0x1003 = true ∧
    (InvalidateCacheRange demoBackend
        (demoJit true 4096 [(⟨0x1000, 0, 0⟩, ⟨0, 64⟩), (⟨0x2000, 0, 0⟩, ⟨64, 64⟩)] 3
          [(0x2000, 0x2003)] false)
        0x1000 4).invalid_cache_ranges.contains 0x2001 = true ∧
    (InvalidateCacheRange demoBackend
        (demoJit true 4096 [(⟨0x1000, 0, 0⟩, ⟨0, 64⟩), (⟨0x2000, 0, 0⟩, ⟨64, 64⟩)] 3
          [(0x2000, 0x2003)] false)
        0x1000 4).invalid_cache_ranges.contains 0x1004 = false :=
  ⟨rfl,
    ((C2_requests_while_executing_only_record demoBackend
      (demoJit true 4096 [(⟨0x1000, 0, 0⟩, ⟨0, 64⟩), (⟨0x2000, 0, 0⟩, ⟨64, 64⟩)] 3
        [(0x2000, 0x2003)] false)
      0x1000 4 rfl).2.2.1 _ (Or.inl rfl)).2.2.2.1,
    ((C2_requests_while_executing_only_record demoBackend
      (demoJit true 4096 [(⟨0x1000, 0, 0⟩, ⟨0, 64⟩), (⟨0x2000, 0, 0⟩, ⟨64, 64⟩)] 3
        [(0x2000, 0x2003)] false)
      0x1000 4 rfl).2.2.1 _ (Or.inr rfl)).2.1,
    (((C2_requests_while_executing_only_record demoBackend
      (demoJit true 4096 [(⟨0x1000, 0, 0⟩, ⟨0, 64⟩), (⟨0x2000, 0, 0⟩, ⟨64, 64⟩)] 3
        [(0x2000, 0x2003)] false)
      0x1000 4 rfl).2.2.2.2.2.2 (by decide) (by decide)).1 0x1003).mpr
        (Or.inl (by decide)),
    (((C2_requests_while_executing_only_record demoBackend
      (demoJit true 4096 [(⟨0x1000, 0, 0⟩, ⟨0, 64⟩), (⟨0x2000, 0, 0⟩, ⟨64, 64⟩)] 3
        [(0x2000, 0x2003)] false)
      0x1000 4 rfl).2.2.2.2.2.2 (by decide) (by decide)).1 0x2001).mpr
        (Or.inr (by decide)),
    by decide⟩

theorem Run_idle (B : Backend BlockOfCode EmitX64 IRBlock) (s : Jit BlockOfCode EmitX64)
    (cycle_count : Nat) (events : List Event) (hidle : s.is_executing = false) :
    Run B s cycle_count events =
      match Execute B (RunEntry s) events with
      | .ok s3 => .ok { PerformCacheInvalidation B s3 with is_executing := false }
      | .error err => .error err := by
  simp only [Run, hidle, Bool.false_eq_true, if_false]
  rfl

theorem Run_returns (B : Backend BlockOfCode EmitX64 IRBlock) (s : Jit BlockOfCode EmitX64)
    (cycle_count : Nat) (events : List Event) (hidle : s.is_executing = false)
    (hv : ∀ ir_block, B.VerificationPass ir_block = true) :
    ∃ s1, Run B s cycle_count events = .ok s1 := by
  obtain ⟨s3, h3⟩ := Execute_returns B hv events (RunEntry s)
  exact ⟨_, by rw [Run_idle B s cycle_count events hidle, h3]⟩

theorem Run_ok_inv (B : Backend BlockOfCode EmitX64 IRBlock) (s s1 : Jit BlockOfCode EmitX64)
    (cycle_count : Nat) (events : List Event) (hidle : s.is_executing = false)
    (h : Run B s cycle_count events = .ok s1) :
    ∃ s3, Execute B (RunEntry s) events = .ok s3 ∧
      s1 = { PerformCacheInvalidation B s3 with is_executing := false } := by
  rw [Run_idle B s cycle_count events hidle] at h
  cases h3 : Execute B (RunEntry s) events with
  | error err => rw [h3] at h; cases h
  | ok s3 =>
    rw [h3] at h
    cases h
    exact ⟨s3, rfl, rfl⟩

theorem PerformCacheInvalidation_not_pending (B : Backend BlockOfCode EmitX64 IRBlock)
    (s : Jit BlockOfCode EmitX64) : Pending (PerformCacheInvalidation B s) = false := by
  unfold PerformCacheInvalidation Pending
  split
  · simp [IntervalSet.clear, IntervalSet.empty]
  · rename_i hf
    split
    · rename_i hr
      simp [hf, hr]
    · simp [hf, IntervalSet.clear, IntervalSet.empty]

theorem PerformCacheInvalidation_flushes (B : Backend BlockOfCode EmitX64 IRBlock)
    (s : Jit BlockOfCode EmitX64) :
    (PerformCacheInvalidation B s).trace.countP Call.isFlush =
      s.trace.countP Call.isFlush + (if Pending s = true then 1 else 0) := by
  unfold PerformCacheInvalidation Pending
  split
  · rename_i hf
    simp [hf, List.countP_append, List.countP_cons, Call.isFlush]
  · rename_i hf
    split
    · rename_i hr
      simp [hf, hr]
    · rename_i hr
      simp [hf, hr, List.countP_append, List.countP_cons, Call.isFlush]

theorem countP_isFlush_quiet (new : List Call)
    (h : ∀ c ∈ new, Call.isInvalidating c = false) : new.countP Call.isFlush = 0 := by
  rw [List.countP_eq_zero]
  intro c hc
  have := h c hc
  cases c <;> simp_all [Call.isInvalidating, Call.isFlush]

/-- C3 (as stated, refuted): the first block lookup of the run misses with 100 bytes of code
space left and flushes at once; the guest then calls `ClearCache`, which is applied when
`Execute` has returned: the generation goes from 5 to 7. -/
theorem C3_counterexample_two_flushes_in_one_run :
    ∃ s1, Run demoBackend (demoJit false 100 [] 5 [] false) 1
        [Event.GetCurrentBlock, Event.ClearCache] = .ok s1 ∧
      s1.invalid_cache_generation = 5 + 2 ∧
      s1.trace.countP Call.isFlush = 2 :=
  ⟨_, rfl, rfl, rfl⟩

/-- C3 (amended): a `Run` started idle during which the guest calls `ClearCache` at least once
and no block lookup misses with less than 1 MiB of code space left ends, when it returns, with
one full flush applied after `Execute`: block table and code buffer are the cleared ones, the
full-flush flag is false, no range is pending, the generation has stepped by one modulo 2^64
(by exactly one below the largest `size_t` value), and the run applied exactly one flush.
With a verification pass that accepts every graph the run does return. -/
theorem C3_clear_cache_during_run_applied_once
    (B : Backend BlockOfCode EmitX64 IRBlock) (s : Jit BlockOfCode EmitX64)
    (cycle_count : Nat) (events : List Event)
    (hidle : s.is_executing = false) (hclear : Event.ClearCache ∈ events)
    (hav : AvoidsCapacityFlush B (RunEntry s) events = true) :
    (∀ s1, Run B s cycle_count events = .ok s1 →
      ∃ s3, Execute B (RunEntry s) events = .ok s3 ∧
        s1.emitter =
          (B.EmitX64_ClearCache (s3.emitter, B.BlockOfCode_ClearCache s3.block_of_code)).1 ∧
        s1.block_of_code =
          (B.EmitX64_ClearCache (s3.emitter, B.BlockOfCode_ClearCache s3.block_of_code)).2 ∧
        s1.invalidate_entire_cache = false ∧
        s1.invalid_cache_ranges.empty = true ∧
        s1.invalid_cache_generation = (s.invalid_cache_generation + 1) % SIZE_T_MOD ∧
        (s.invalid_cache_generation + 1 < SIZE_T_MOD →
          s1.invalid_cache_generation = s.invalid_cache_generation + 1) ∧
        s1.trace.countP Call.isFlush = s.trace.countP Call.isFlush + 1 ∧
        (∃ new, (∀ c ∈ new, Call.isInvalidating c = false) ∧
          s1.trace = s.trace ++ new ++
            [Call.ResetRSB, Call.BlockOfCode_ClearCache, Call.EmitX64_ClearCache]) ∧
        s1.is_executing = false) ∧
    ((∀ ir_block, B.VerificationPass ir_block = true) →
      ∃ s1, Run B s cycle_count events = .ok s1) := by
  refine ⟨?_, Run_returns B s cycle_count events hidle⟩
  intro s1 h
  obtain ⟨s3, h3, rfl⟩ := Run_ok_inv B s s1 cycle_count events hidle h
  have q := Execute_quiet B events (RunEntry s) s3 rfl hav h3
  have hf := Execute_entire B events (RunEntry s) s3 rfl hav h3 hclear
  obtain ⟨new, hnew, hall⟩ := q.trace
  have hg : s3.invalid_cache_generation = s.invalid_cache_generation := q.generation
  have ht : s3.trace = s.trace ++ new := hnew
  refine ⟨s3, h3, ?_⟩
  rw [PerformCacheInvalidation_full B s3 hf]
  refine ⟨rfl, rfl, rfl, rfl, ?_, ?_, ?_, ⟨new, hall, ?_⟩, rfl⟩
  · simp only [hg]
  · intro hlt
    simp only [hg]
    exact Nat.mod_eq_of_lt hlt
  · simp [ht, List.countP_append, List.countP_cons, Call.isFlush,
      countP_isFlush_quiet new hall]
  · simp only [ht]

/-- C3 witness: the guest compiles one block with ample code space and calls `ClearCache`
twice; the run returns at generation 6 with flag and ranges cleared. -/
theorem C3_clear_cache_during_run_applied_once_witness :
    ∃ s1, Run demoBackend (demoJit false 0x4000000 [] 5 [] false) 1
        [Event.GetCurrentBlock, Event.ClearCache, Event.ClearCache] = .ok s1 ∧
      s1.invalid_cache_generation = 5 + 1 ∧ s1.invalidate_entire_cache = false ∧
      s1.emitter = ⟨[]⟩ := by
  have h := C3_clear_cache_during_run_applied_once demoBackend
    (demoJit false 0x4000000 [] 5 [] false) 1
    [Event.GetCurrentBlock, Event.ClearCache, Event.ClearCache] rfl (by simp) rfl
  obtain ⟨s1, hs1⟩ := h.2 (fun _ => rfl)
  obtain ⟨s3, _, hem, _, hflag, _, _, hgen, _⟩ := h.1 s1 hs1
  exact ⟨s1, hs1, hgen (by simp [demoJit, SIZE_T_MOD]), hflag, by rw [hem]; rfl⟩

/-- C4 (as stated, refuted): a block lookup during the execution phase that misses with
100 bytes of code space left resets the return-stack buffer, clears buffer and block table and
steps the generation while the engine is still executing, before `Execute` has returned. -/
theorem C4_counterexample_capacity_flush_while_executing :
    ∃ s3, Execute demoBackend (RunEntry (demoJit false 100 [] 5 [] false))
        [Event.GetCurrentBlock] = .ok s3 ∧
      s3.is_executing = true ∧
      s3.invalid_cache_generation = 6 ∧
      s3.trace =
        [Call.ResetRSB, Call.BlockOfCode_ClearCache, Call.EmitX64_ClearCache,
          Call.Translate ⟨0, 0, 0⟩, Call.EmitX64_Emit ⟨0, 0, 0⟩] :=
  ⟨_, rfl, rfl, rfl, rfl⟩

theorem Execute_ranges (B : Backend BlockOfCode EmitX64 IRBlock) (events : List Event) :
    ∀ (s s3 : Jit BlockOfCode EmitX64) (start_address length x : Nat),
      s.is_executing = true → AvoidsCapacityFlush B s events = true →
      Execute B s events = .ok s3 →
      Event.InvalidateCacheRange start_address length ∈ events →
      1 ≤ length → start_address + length ≤ U32_MOD →
      start_address ≤ x → x ≤ start_address + length - 1 →
      s3.invalid_cache_ranges.contains x = true := by
  induction events with
  | nil => intro s s3 a l x _ _ _ hm; cases hm
  | cons e es ih =>
    intro s s3 a l x hx hav h hm hlen hfit hlo hhi
    simp only [Execute] at h
    cases he : ExecuteEvent B s e with
    | error err => rw [he] at h; cases h
    | ok s1 =>
      rw [he] at h
      obtain ⟨hav1, hav2⟩ := AvoidsCapacityFlush_cons B s s1 e es hav he
      have q1 := ExecuteEvent_quiet B s s1 e hx hav1 he
      have hx1 : s1.is_executing = true := q1.executing.trans hx
      rcases List.mem_cons.mp hm with hm | hm
      · subst hm
        have hs1 : s1.invalid_cache_ranges.contains x = true := by
          cases he
          simp only [InvalidateCacheRange, RequestCacheInvalidation, hx, if_true,
            RangeUpper_fits a l hlen hfit]
          exact (IntervalSet.contains_add _ _ _ _).mpr (Or.inl ⟨hlo, hhi⟩)
        exact (Execute_quiet B es s1 s3 hx1 hav2 h).ranges x hs1
      · exact ih s1 s3 a l x hx1 hav2 h hm hlen hfit hlo hhi

theorem PerformCacheInvalidation_applies (B : Backend BlockOfCode EmitX64 IRBlock)
    (s : Jit BlockOfCode EmitX64) :
    (PerformCacheInvalidation B s).trace =
      s.trace ++
        (if s.invalidate_entire_cache = true then
          [Call.ResetRSB, Call.BlockOfCode_ClearCache, Call.EmitX64_ClearCache]
        else if s.invalid_cache_ranges.empty = true then []
        else [Call.ResetRSB, Call.EmitX64_InvalidateCacheRanges s.invalid_cache_ranges]) ∧
    ((PerformCacheInvalidation B s).emitter, (PerformCacheInvalidation B s).block_of_code) =
      (if s.invalidate_entire_cache = true then
        B.EmitX64_ClearCache (s.emitter, B.BlockOfCode_ClearCache s.block_of_code)
      else if s.invalid_cache_ranges.empty = true then (s.emitter, s.block_of_code)
      else B.EmitX64_InvalidateCacheRanges (s.emitter, s.block_of_code)
        s.invalid_cache_ranges) := by
  rcases Bool.eq_false_or_eq_true s.invalidate_entire_cache with hf | hf
  · rw [PerformCacheInvalidation_full B s hf]
    simp [hf]
  · rcases Bool.eq_false_or_eq_true s.invalid_cache_ranges.empty with hr | hr
    · rw [PerformCacheInvalidation_nothing B s hf hr]
      simp [hf, hr]
    · rw [PerformCacheInvalidation_ranges B s hf hr]
      simp [hf, hr]

/-- C4 (amended): in a `Run` started idle in which no block lookup misses with less than 1 MiB
of code space left, whatever invalidation requests and lookups occur, up to the return of
`Execute` the engine is executing, the generation is the one `Run` started with, the trace has
gained translations and emissions only (no flush, no clearing, no reset of the return-stack
buffer) and no request is dropped: what was pending before is still pending, a `ClearCache`
of the run has left the full-flush flag set, and every address of every range requested in
the run that lies inside the 32-bit address space is pending. `Run` then applies what is
pending exactly once: its result is `PerformCacheInvalidation` of the state `Execute`
returned, which hands the emitter the clearing of the cache if the flag is set and otherwise
the pending ranges if there are any, adds one flush to the trace if something is pending
(so whenever the run made such a request) and none otherwise, and leaves nothing pending.
With a verification pass that accepts every graph the run does return. -/
theorem C4_requests_deferred_until_execute_returns
    (B : Backend BlockOfCode EmitX64 IRBlock) (s : Jit BlockOfCode EmitX64)
    (cycle_count : Nat) (events : List Event)
    (hidle : s.is_executing = false)
    (hav : AvoidsCapacityFlush B (RunEntry s) events = true) :
    (∀ s1, Run B s cycle_count events = .ok s1 →
      ∃ s3, Execute B (RunEntry s) events = .ok s3 ∧
        s3.is_executing = true ∧
        s3.invalid_cache_generation = s.invalid_cache_generation ∧
        (∃ new, s3.trace = s.trace ++ new ∧ ∀ c ∈ new, Call.isInvalidating c = false) ∧
        (s.invalidate_entire_cache = true → s3.invalidate_entire_cache = true) ∧
        (∀ x, s.invalid_cache_ranges.contains x = true →
          s3.invalid_cache_ranges.contains x = true) ∧
        s1 = { PerformCacheInvalidation B s3 with is_executing := false } ∧
        s1.trace.countP Call.isFlush =
          s.trace.countP Call.isFlush + (if Pending s3 = true then 1 else 0) ∧
        Pending s1 = false ∧
        (Event.ClearCache ∈ events → s3.invalidate_entire_cache = true) ∧
        (∀ start_address length, Event.InvalidateCacheRange start_address length ∈ events →
          1 ≤ length → start_address + length ≤ U32_MOD →
          ∀ x, start_address ≤ x → x ≤ start_address + length - 1 →
            s3.invalid_cache_ranges.contains x = true) ∧
        s1.trace =
          s3.trace ++
            (if s3.invalidate_entire_cache = true then
              [Call.ResetRSB, Call.BlockOfCode_ClearCache, Call.EmitX64_ClearCache]
            else if s3.invalid_cache_ranges.empty = true then []
            else [Call.ResetRSB,
              Call.EmitX64_InvalidateCacheRanges s3.invalid_cache_ranges]) ∧
        (s1.emitter, s1.block_of_code) =
          (if s3.invalidate_entire_cache = true then
            B.EmitX64_ClearCache (s3.emitter, B.BlockOfCode_ClearCache s3.block_of_code)
          else if s3.invalid_cache_ranges.empty = true then (s3.emitter, s3.block_of_code)
          else B.EmitX64_InvalidateCacheRanges (s3.emitter, s3.block_of_code)
            s3.invalid_cache_ranges) ∧
        ((Event.ClearCache ∈ events ∨
            ∃ start_address length, Event.InvalidateCacheRange start_address length ∈ events ∧
              1 ≤ length ∧ start_address + length ≤ U32_MOD) →
          Pending s3 = true ∧
          s1.trace.countP Call.isFlush = s.trace.countP Call.isFlush + 1)) ∧
    ((∀ ir_block, B.VerificationPass ir_block = true) →
      ∃ s1, Run B s cycle_count events = .ok s1) := by
  refine ⟨?_, Run_returns B s cycle_count events hidle⟩
  intro s1 h
  obtain ⟨s3, h3, rfl⟩ := Run_ok_inv B s s1 cycle_count events hidle h
  have q := Execute_quiet B events (RunEntry s) s3 rfl hav h3
  obtain ⟨new, hnew, hall⟩ := q.trace
  have ht : s3.trace = s.trace ++ new := hnew
  have hcount : (PerformCacheInvalidation B s3).trace.countP Call.isFlush =
      s.trace.countP Call.isFlush + (if Pending s3 = true then 1 else 0) := by
    rw [PerformCacheInvalidation_flushes, ht, List.countP_append,
      countP_isFlush_quiet new hall, Nat.add_zero]
  have hclear : Event.ClearCache ∈ events → s3.invalidate_entire_cache = true :=
    Execute_entire B events (RunEntry s) s3 rfl hav h3
  have hranges : ∀ start_address length,
      Event.InvalidateCacheRange start_address length ∈ events →
      1 ≤ length → start_address + length ≤ U32_MOD →
      ∀ x, start_address ≤ x → x ≤ start_address + length - 1 →
        s3.invalid_cache_ranges.contains x = true :=
    fun a l hm hlen hfit x hlo hhi =>
      Execute_ranges B events (RunEntry s) s3 a l x rfl hav h3 hm hlen hfit hlo hhi
  refine ⟨s3, h3, q.executing, q.generation, ⟨new, ht, hall⟩, q.entire, q.ranges, rfl,
    hcount, PerformCacheInvalidation_not_pending B s3, hclear, hranges,
    (PerformCacheInvalidation_applies B s3).1, (PerformCacheInvalidation_applies B s3).2, ?_⟩
  intro hreq
  have hp : Pending s3 = true := by
    unfold Pending
    rcases hreq with hc | ⟨a, l, hm, hlen, hfit⟩
    · rw [hclear hc]; rfl
    · have hcont := hranges a l hm hlen hfit a (Nat.le_refl a) (by omega)
      rw [IntervalSet.contains_not_empty _ a hcont]
      simp
  refine ⟨hp, ?_⟩
  show (PerformCacheInvalidation B s3).trace.countP Call.isFlush = _
  rw [hcount, hp]
  simp

/-- C4 witness: with ample code space the guest compiles a block, requests the range
`[0x1000, 0x1003]`, changes its floating-point mode and compiles another block; when `Execute`
returns the generation is still 5 and the addresses 0x1000 and 0x1003 are pending, and the
run ends with a single flush, the ranged one, after which the generation is 6. -/
theorem C4_requests_deferred_until_execute_returns_witness :
    ∃ s1 s3, Run demoBackend (demoJit false 0x4000000 [] 5 [] false) 1
        [Event.GetCurrentBlock, Event.InvalidateCacheRange 0x1000 4,
          Event.Guest (fun js => { js with FPSCR_mode := 1 }), Event.GetCurrentBlock] = .ok s1 ∧
      Execute demoBackend (RunEntry (demoJit false 0x4000000 [] 5 [] false))
        [Event.GetCurrentBlock, Event.InvalidateCacheRange 0x1000 4,
          Event.Guest (fun js => { js with FPSCR_mode := 1 }), Event.GetCurrentBlock] = .ok s3 ∧
      s3.invalid_cache_generation = 5 ∧
      s3.invalid_cache_ranges.contains 0x1000 = true ∧
      s3.invalid_cache_ranges.contains 0x1003 = true ∧
      s1.trace.countP Call.isFlush = 0 + 1 ∧
      s1.invalid_cache_generation = 6 := by
  have h := C4_requests_deferred_until_execute_returns demoBackend
    (demoJit false 0x4000000 [] 5 [] false) 1
    [Event.GetCurrentBlock, Event.InvalidateCacheRange 0x1000 4,
      Event.Guest (fun js => { js with FPSCR_mode := 1 }), Event.GetCurrentBlock] rfl rfl
  obtain ⟨s1, hs1⟩ := h.2 (fun _ => rfl)
  obtain ⟨s3, h3, _, hgen, _, _, _, hs, _, _, _, hranges, _, _, happlied⟩ := h.1 s1 hs1
  have hm : Event.InvalidateCacheRange 0x1000 4 ∈
      [Event.GetCurrentBlock, Event.InvalidateCacheRange 0x1000 4,
        Event.Guest (fun js => { js with FPSCR_mode := 1 }), Event.GetCurrentBlock] := by
    simp
  refine ⟨s1, s3, hs1, h3, hgen,
    hranges 0x1000 4 hm (by decide) (by decide) 0x1000 (by decide) (by decide),
    hranges 0x1000 4 hm (by decide) (by decide) 0x1003 (by decide) (by decide),
    (happlied (Or.inr ⟨0x1000, 4, hm, by decide, by decide⟩)).2, ?_⟩
  subst hs
  cases h3
  rfl

/-- C5 (as stated, refuted): for start 0xFFFFFFFF and length 2 the truncated upper bound is 0,
the interval is empty and an idle engine with nothing pending does nothing at all: the block
at 0xFFFFFFFF stays cached, no call reaches the emitter and the generation stays 5. And at the
largest `size_t` generation the applied range invalidation 0x1000, 4 wraps the generation to
zero. -/
theorem C5_counterexample_range_past_address_space :
    InvalidateCacheRange demoBackend
        (demoJit false 4096 [(⟨0xFFFFFFFF, 0, 0⟩, ⟨0, 64⟩)] 5 [] false) 0xFFFFFFFF 2 =
      demoJit false 4096 [(⟨0xFFFFFFFF, 0, 0⟩, ⟨0, 64⟩)] 5 [] false ∧
    (InvalidateCacheRange demoBackend
        (demoJit false 4096 [(⟨0xFFFFFFFF, 0, 0⟩, ⟨0, 64⟩)] 5 [] false)
        0xFFFFFFFF 2).invalid_cache_generation = 5 ∧
    (InvalidateCacheRange demoBackend
        (demoJit false 4096 [(⟨0xFFFFFFFF, 0, 0⟩, ⟨0, 64⟩)] 5 [] false) 0xFFFFFFFF 2).trace = [] ∧
    (InvalidateCacheRange demoBackend
        (demoJit false 4096 [(⟨0x1000, 0, 0⟩, ⟨0, 64⟩)] (2 ^ 64 - 1) [] false)
        0x1000 4).invalid_cache_generation = 0 := by
  refine ⟨?_, ?_, ?_, ?_⟩ <;> decide

/-- C5 (amended): for every range that lies inside the 32-bit address space (length at least
1 and start + length - 1 at most 0xFFFFFFFF), `InvalidateCacheRange` on an idle engine is
applied at once: no range is pending on return, the full-flush flag is false, the guest state
is the old one with the return-stack buffer reset, the generation has stepped by one modulo
2^64 (by exactly one below the largest `size_t` value), and the emitter was handed either the
pending ranges, which contain every address of the requested range, or, if the full-flush flag
was set, the clearing of the whole cache. -/
theorem C5_idle_range_invalidation_applied_immediately
    (B : Backend BlockOfCode EmitX64 IRBlock) (s : Jit BlockOfCode EmitX64)
    (start_address length : Nat)
    (hidle : s.is_executing = false) (hlen : 1 ≤ length)
    (hfit : start_address + length ≤ U32_MOD) :
    (InvalidateCacheRange B s start_address length).invalid_cache_ranges.empty = true ∧
    (InvalidateCacheRange B s start_address length).invalidate_entire_cache = false ∧
    (InvalidateCacheRange B s start_address length).jit_state = s.jit_state.ResetRSB ∧
    (InvalidateCacheRange B s start_address length).invalid_cache_generation =
      (s.invalid_cache_generation + 1) % SIZE_T_MOD ∧
    (s.invalid_cache_generation + 1 < SIZE_T_MOD →
      (InvalidateCacheRange B s start_address length).invalid_cache_generation =
        s.invalid_cache_generation + 1) ∧
    (∀ x, start_address ≤ x → x ≤ start_address + length - 1 →
      (s.invalid_cache_ranges.add start_address (start_address + length - 1)).contains x
        = true) ∧
    (if s.invalidate_entire_cache = true then
      (InvalidateCacheRange B s start_address length).trace =
        s.trace ++ [Call.ResetRSB, Call.BlockOfCode_ClearCache, Call.EmitX64_ClearCache] ∧
      ((InvalidateCacheRange B s start_address length).emitter,
        (InvalidateCacheRange B s start_address length).block_of_code) =
          B.EmitX64_ClearCache (s.emitter, B.BlockOfCode_ClearCache s.block_of_code)
    else
      (InvalidateCacheRange B s start_address length).trace =
        s.trace ++ [Call.ResetRSB, Call.EmitX64_InvalidateCacheRanges
          (s.invalid_cache_ranges.add start_address (start_address + length - 1))] ∧
      ((InvalidateCacheRange B s start_address length).emitter,
        (InvalidateCacheRange B s start_address length).block_of_code) =
          B.EmitX64_InvalidateCacheRanges (s.emitter, s.block_of_code)
            (s.invalid_cache_ranges.add start_address (start_address + length - 1))) := by
  have hup := RangeUpper_fits start_address length hlen hfit
  have hne : (s.invalid_cache_ranges.add start_address (start_address + length - 1)).empty
      = false := IntervalSet.add_not_empty _ _ _ (by omega)
  have hcontains : ∀ x, start_address ≤ x → x ≤ start_address + length - 1 →
      (s.invalid_cache_ranges.add start_address (start_address + length - 1)).contains x
        = true := fun x h1 h2 => (IntervalSet.contains_add _ _ _ _).mpr (Or.inl ⟨h1, h2⟩)
  have hreq : InvalidateCacheRange B s start_address length =
      PerformCacheInvalidation B
        { s with
          invalid_cache_ranges :=
            s.invalid_cache_ranges.add start_address (start_address + length - 1) } := by
    simp [InvalidateCacheRange, RequestCacheInvalidation, hidle, hup]
  rw [hreq]
  rcases Bool.eq_false_or_eq_true s.invalidate_entire_cache with hf | hf
  · rw [PerformCacheInvalidation_full B
      { s with
        invalid_cache_ranges :=
          s.invalid_cache_ranges.add start_address (start_address + length - 1) } hf]
    refine ⟨rfl, rfl, rfl, rfl, fun hlt => Nat.mod_eq_of_lt hlt, hcontains, ?_⟩
    simp [hf]
  · rw [PerformCacheInvalidation_ranges B
      { s with
        invalid_cache_ranges :=
          s.invalid_cache_ranges.add start_address (start_address + length - 1) } hf hne]
    refine ⟨rfl, hf, rfl, rfl, fun hlt => Nat.mod_eq_of_lt hlt, hcontains, ?_⟩
    simp [hf]

/-- C5 witness: start 0x1000, length 4 on an idle engine that has the blocks at 0x1000 and at
0x2000 cached at generation 5: the block at 0x1000 is evicted, the other one stays, the
generation becomes 6. -/
theorem C5_idle_range_invalidation_applied_immediately_witness :
    (InvalidateCacheRange demoBackend
        (demoJit false 4096 [(⟨0x1000, 0, 0⟩, ⟨0, 64⟩), (⟨0x2000, 0, 0⟩, ⟨64, 64⟩)] 5 [] false)
        0x1000 4).invalid_cache_generation = 5 + 1 ∧
    (InvalidateCacheRange demoBackend
        (demoJit false 4096 [(⟨0x1000, 0, 0⟩, ⟨0, 64⟩), (⟨0x2000, 0, 0⟩, ⟨64, 64⟩)] 5 [] false)
        0x1000 4).emitter = ⟨[(⟨0x2000, 0, 0⟩, ⟨64, 64⟩)]⟩ ∧
    (InvalidateCacheRange demoBackend
        (demoJit false 4096 [(⟨0x1000, 0, 0⟩, ⟨0, 64⟩), (⟨0x2000, 0, 0⟩, ⟨64, 64⟩)] 5 [] false)
        0x1000 4).invalid_cache_ranges.empty = true := by
  have h := C5_idle_range_invalidation_applied_immediately demoBackend
    (demoJit false 4096 [(⟨0x1000, 0, 0⟩, ⟨0, 64⟩), (⟨0x2000, 0, 0⟩, ⟨64, 64⟩)] 5 [] false)
    0x1000 4 rfl (by decide) (by decide)
  exact ⟨h.2.2.2.2.1 (by decide), by decide, h.1⟩

/-- C6: `LoadContext` takes the general registers, the extended registers and the CPSR, FPSCR
and MXCSR fields from the snapshot; with equal generations the return-stack buffer (cursor,
location descriptors, code pointers) is also taken from the snapshot as it is, with different
generations the return-stack buffer of the engine is reset instead. -/
theorem C6_load_context_restores_registers_and_rsb
    (s : Jit BlockOfCode EmitX64) (ctx : Context) :
    (LoadContext s ctx).jit_state.Reg = ctx.jit_state.Reg ∧
    (LoadContext s ctx).jit_state.ExtReg = ctx.jit_state.ExtReg ∧
    (LoadContext s ctx).jit_state.CPSR_ge = ctx.jit_state.CPSR_ge ∧
    (LoadContext s ctx).jit_state.CPSR_et = ctx.jit_state.CPSR_et ∧
    (LoadContext s ctx).jit_state.CPSR_q = ctx.jit_state.CPSR_q ∧
    (LoadContext s ctx).jit_state.CPSR_nzcv = ctx.jit_state.CPSR_nzcv ∧
    (LoadContext s ctx).jit_state.CPSR_jaifm = ctx.jit_state.CPSR_jaifm ∧
    (LoadContext s ctx).jit_state.guest_MXCSR = ctx.jit_state.guest_MXCSR ∧
    (LoadContext s ctx).jit_state.FPSCR_IDC = ctx.jit_state.FPSCR_IDC ∧
    (LoadContext s ctx).jit_state.FPSCR_UFC = ctx.jit_state.FPSCR_UFC ∧
    (LoadContext s ctx).jit_state.FPSCR_mode = ctx.jit_state.FPSCR_mode ∧
    (LoadContext s ctx).jit_state.FPSCR_nzcv = ctx.jit_state.FPSCR_nzcv ∧
    (if ctx.invalid_cache_generation = s.invalid_cache_generation then
      (LoadContext s ctx).jit_state.rsb_ptr = ctx.jit_state.rsb_ptr ∧
      (LoadContext s ctx).jit_state.rsb_location_descriptors =
        ctx.jit_state.rsb_location_descriptors ∧
      (LoadContext s ctx).jit_state.rsb_codeptrs = ctx.jit_state.rsb_codeptrs ∧
      (LoadContext s ctx).trace = s.trace
    else
      (LoadContext s ctx).jit_state.RSBIsReset = true ∧
      (LoadContext s ctx).jit_state.rsb_location_descriptors =
        s.jit_state.ResetRSB.rsb_location_descriptors ∧
      (LoadContext s ctx).jit_state.rsb_codeptrs = s.jit_state.ResetRSB.rsb_codeptrs ∧
      (LoadContext s ctx).trace = s.trace ++ [Call.ResetRSB]) := by
  by_cases h : ctx.invalid_cache_generation = s.invalid_cache_generation
  · simp [LoadContext, TransferJitState, h]
  · simp [LoadContext, TransferJitState, h, JitState.ResetRSB, JitState.RSBIsReset]

/-- C7: loading the snapshot just taken by `SaveContext`, with no invalidation in between,
leaves the whole engine state, and so registers, flags and return-stack buffer, as it was; and
loaded into any engine state `s2` that is at the generation of the snapshot, it reproduces the
registers, flags and return-stack buffer of `s` (the halt flag and the exclusive state are not
part of the transfer and stay those of `s2`). -/
theorem C7_load_of_save_is_identity (s s2 : Jit BlockOfCode EmitX64) :
    LoadContext s (SaveContext s) = s ∧
    (LoadContext s (SaveContext s)).jit_state = s.jit_state ∧
    (LoadContext { s2 with invalid_cache_generation := s.invalid_cache_generation }
        (SaveContext s)).jit_state =
      { s.jit_state with
        halt_requested := s2.jit_state.halt_requested
        exclusive_state := s2.jit_state.exclusive_state } := by
  have h : LoadContext s (SaveContext s) = s := by
    simp [LoadContext, SaveContext, SaveContextInto, TransferJitState]
  refine ⟨h, by rw [h], ?_⟩
  simp [LoadContext, SaveContext, SaveContextInto, TransferJitState]

theorem Tracks_refl (s : Jit BlockOfCode EmitX64) : Tracks s s :=
  ⟨0, rfl, rfl⟩

theorem Tracks_of_eq (s s1 : Jit BlockOfCode EmitX64)
    (hg : s1.invalid_cache_generation = s.invalid_cache_generation)
    (ht : s1.trace.countP Call.isFlush = s.trace.countP Call.isFlush) : Tracks s s1 :=
  ⟨0, by simp [AppliedInvalidations, ht], by rw [hg]; rfl⟩

theorem Tracks_trans {s s1 s2 : Jit BlockOfCode EmitX64} (h1 : Tracks s s1)
    (h2 : Tracks s1 s2) : Tracks s s2 := by
  obtain ⟨k1, c1, g1⟩ := h1
  obtain ⟨k2, c2, g2⟩ := h2
  refine ⟨k1 + k2, by omega, ?_⟩
  rw [g2, Nat.add_mod, g1, ← Nat.add_mod, Nat.add_assoc]

theorem PerformCacheInvalidation_tracks (B : Backend BlockOfCode EmitX64 IRBlock)
    (s : Jit BlockOfCode EmitX64) : Tracks s (PerformCacheInvalidation B s) := by
  refine ⟨if Pending s = true then 1 else 0, PerformCacheInvalidation_flushes B s, ?_⟩
  unfold Pending
  rcases Bool.eq_false_or_eq_true s.invalidate_entire_cache with hf | hf
  · rw [PerformCacheInvalidation_full B s hf]
    simp [hf]
  · rcases Bool.eq_false_or_eq_true s.invalid_cache_ranges.empty with hr | hr
    · rw [PerformCacheInvalidation_nothing B s hf hr]
      simp [hf, hr]
    · rw [PerformCacheInvalidation_ranges B s hf hr]
      simp [hf, hr]

theorem RequestCacheInvalidation_tracks (B : Backend BlockOfCode EmitX64 IRBlock)
    (s : Jit BlockOfCode EmitX64) : Tracks s (RequestCacheInvalidation B s) := by
  unfold RequestCacheInvalidation
  split
  · exact Tracks_of_eq _ _ rfl rfl
  · exact PerformCacheInvalidation_tracks B s

theorem GetBasicBlock_ok_inv (B : Backend BlockOfCode EmitX64 IRBlock)
    (s : Jit BlockOfCode EmitX64) (descriptor : LocationDescriptor)
    (r : BlockDescriptor × Jit BlockOfCode EmitX64)
    (h : GetBasicBlock B s descriptor = .ok r) :
    r.2 = s ∨
    ∃ s1 : Jit BlockOfCode EmitX64, ∃ em : EmitX64, ∃ boc : BlockOfCode,
      (s1 = s ∨ s1 = PerformCacheInvalidation B { s with invalidate_entire_cache := true }) ∧
      r.2 =
        { s1 with
          emitter := em
          block_of_code := boc
          trace := s1.trace ++ [Call.Translate descriptor, Call.EmitX64_Emit descriptor] } := by
  unfold GetBasicBlock at h
  split at h
  · cases h
    exact Or.inl rfl
  · by_cases hsp : B.SpaceRemaining s.block_of_code < MINIMUM_REMAINING_CODESIZE
    · simp only [hsp, if_true] at h
      split at h
      · cases h
        exact Or.inr ⟨_, _, _, Or.inr rfl, rfl⟩
      · cases h
    · simp only [hsp, if_false] at h
      split at h
      · cases h
        exact Or.inr ⟨_, _, _, Or.inl rfl, rfl⟩
      · cases h

theorem GetBasicBlock_tracks (B : Backend BlockOfCode EmitX64 IRBlock)
    (s : Jit BlockOfCode EmitX64) (descriptor : LocationDescriptor)
    (r : BlockDescriptor × Jit BlockOfCode EmitX64)
    (h : GetBasicBlock B s descriptor = .ok r) : Tracks s r.2 := by
  rcases GetBasicBlock_ok_inv B s descriptor r h with h | ⟨s1, em, boc, hs1, hr⟩
  · rw [h]; exact Tracks_refl s
  · rw [hr]
    have h1 : Tracks s s1 := by
      rcases hs1 with rfl | rfl
      · exact Tracks_refl _
      · exact Tracks_trans (Tracks_of_eq s { s with invalidate_entire_cache := true } rfl rfl)
          (PerformCacheInvalidation_tracks B _)
    exact Tracks_trans h1
      (Tracks_of_eq _ _ rfl (by simp [List.countP_append, List.countP_cons, Call.isFlush]))

theorem ExecuteEvent_tracks (B : Backend BlockOfCode EmitX64 IRBlock)
    (s s1 : Jit BlockOfCode EmitX64) (e : Event) (h : ExecuteEvent B s e = .ok s1) :
    Tracks s s1 := by
  cases e with
  | GetCurrentBlock =>
    simp only [ExecuteEvent, GetCurrentBlock] at h
    cases hg : GetBasicBlock B s (CurrentDescriptor B s.jit_state) with
    | error err => rw [hg] at h; cases h
    | ok r =>
      rw [hg] at h
      obtain ⟨block, s2⟩ := r
      cases h
      exact GetBasicBlock_tracks B s _ (block, s2) hg
  | Guest f => cases h; exact Tracks_of_eq _ _ rfl rfl
  | ClearCache =>
    cases h
    exact Tracks_trans (Tracks_of_eq s { s with invalidate_entire_cache := true } rfl rfl)
      (RequestCacheInvalidation_tracks B _)
  | InvalidateCacheRange start_address length =>
    cases h
    exact Tracks_trans
      (Tracks_of_eq s
        { s with
          invalid_cache_ranges :=
            s.invalid_cache_ranges.add start_address (RangeUpper start_address length) }
        rfl rfl)
      (RequestCacheInvalidation_tracks B _)
  | HaltExecution => cases h; exact Tracks_of_eq _ _ rfl rfl

theorem Execute_tracks (B : Backend BlockOfCode EmitX64 IRBlock) (events : List Event) :
    ∀ s s3 : Jit BlockOfCode EmitX64, Execute B s events = .ok s3 → Tracks s s3 := by
  induction events with
  | nil => intro s s3 h; cases h; exact Tracks_refl s
  | cons e es ih =>
    intro s s3 h
    simp only [Execute] at h
    cases he : ExecuteEvent B s e with
    | error err => rw [he] at h; cases h
    | ok s1 =>
      rw [he] at h
      exact Tracks_trans (ExecuteEvent_tracks B s s1 e he) (ih s1 s3 h)

theorem Run_tracks (B : Backend BlockOfCode EmitX64 IRBlock) (s s1 : Jit BlockOfCode EmitX64)
    (cycle_count : Nat) (events : List Event) (h : Run B s cycle_count events = .ok s1) :
    Tracks s s1 := by
  rcases Bool.eq_false_or_eq_true s.is_executing with hx | hx
  · simp [Run, hx] at h
  · obtain ⟨s3, h3, rfl⟩ := Run_ok_inv B s s1 cycle_count events hx h
    exact Tracks_trans (Tracks_of_eq s (RunEntry s) rfl rfl)
      (Tracks_trans (Execute_tracks B events _ s3 h3)
        (Tracks_trans (PerformCacheInvalidation_tracks B s3) (Tracks_of_eq _ _ rfl rfl)))

theorem Invoke_tracks (B : Backend BlockOfCode EmitX64 IRBlock) (s s1 : Jit BlockOfCode EmitX64)
    (op : Op) (h : Invoke B s op = .ok s1) : Tracks s s1 := by
  cases op with
  | Run cycle_count events => exact Run_tracks B s s1 cycle_count events h
  | ClearCache => exact ExecuteEvent_tracks B s s1 Event.ClearCache h
  | InvalidateCacheRange a l => exact ExecuteEvent_tracks B s s1 (Event.InvalidateCacheRange a l) h
  | Reset =>
    simp only [Invoke, Reset] at h
    split at h
    · cases h
    · cases h; exact Tracks_of_eq _ _ rfl rfl
  | HaltExecution => cases h; exact Tracks_of_eq _ _ rfl rfl
  | SetCpsr value => cases h; exact Tracks_of_eq _ _ rfl rfl
  | ClearExclusiveState => cases h; exact Tracks_of_eq _ _ rfl rfl
  | SetFpscr value => cases h; exact Tracks_of_eq _ _ rfl rfl
  | SaveContext => cases h; exact Tracks_refl s
  | LoadContext ctx =>
    cases h
    refine Tracks_of_eq _ _ rfl ?_
    simp only [LoadContext]
    split <;> simp [List.countP_append, List.countP_cons, Call.isFlush]
  | Disassemble descriptor =>
    simp only [Invoke, Disassemble] at h
    cases hg : GetBasicBlock B s descriptor with
    | error err => rw [hg] at h; cases h
    | ok r =>
      rw [hg] at h
      cases h
      exact GetBasicBlock_tracks B s descriptor r hg

theorem InvokeAll_tracks (B : Backend BlockOfCode EmitX64 IRBlock) (ops : List Op) :
    ∀ s s1 : Jit BlockOfCode EmitX64, InvokeAll B s ops = .ok s1 → Tracks s s1 := by
  induction ops with
  | nil => intro s s1 h; cases h; exact Tracks_refl s
  | cons op ops ih =>
    intro s s1 h
    simp only [InvokeAll] at h
    cases ho : Invoke B s op with
    | error err => rw [ho] at h; cases h
    | ok s2 =>
      rw [ho] at h
      exact Tracks_trans (Invoke_tracks B s s2 op ho) (ih s2 s1 h)

theorem ClearCache_idle (B : Backend BlockOfCode EmitX64 IRBlock)
    (s : Jit BlockOfCode EmitX64) (hidle : s.is_executing = false) :
    ClearCache B s = PerformCacheInvalidation B { s with invalidate_entire_cache := true } := by
  simp [ClearCache, RequestCacheInvalidation, hidle]

theorem InvokeAll_ClearCache_replicate (B : Backend BlockOfCode EmitX64 IRBlock) (n : Nat) :
    ∀ s : Jit BlockOfCode EmitX64, s.is_executing = false →
      ∃ s1, InvokeAll B s (List.replicate n Op.ClearCache) = .ok s1 ∧
        s1.is_executing = false ∧
        AppliedInvalidations s1 = AppliedInvalidations s + n ∧
        s1.invalid_cache_generation =
          if n = 0 then s.invalid_cache_generation
          else (s.invalid_cache_generation + n) % SIZE_T_MOD := by
  induction n with
  | zero => intro s hidle; exact ⟨s, rfl, hidle, rfl, rfl⟩
  | succ n ih =>
    intro s hidle
    have hc := ClearCache_idle B s hidle
    rw [PerformCacheInvalidation_full B { s with invalidate_entire_cache := true } rfl] at hc
    obtain ⟨s1, h1, hx1, ha1, hg1⟩ := ih (ClearCache B s) (by rw [hc]; exact hidle)
    refine ⟨s1, ?_, hx1, ?_, ?_⟩
    · simp only [List.replicate_succ, InvokeAll, Invoke]
      exact h1
    · rw [ha1, hc]
      simp [AppliedInvalidations, List.countP_append, List.countP_cons, Call.isFlush]
      omega
    · rw [hg1, hc]
      simp only [Nat.succ_ne_zero, if_false]
      split
      · rename_i hn
        subst hn
        simp
      · rw [Nat.mod_add_mod, Nat.add_assoc, Nat.add_comm 1 n]

/-- C8 (as stated, refuted): between `SaveContext` and `LoadContext` the embedder calls
`ClearCache` 2^64 times on the idle engine; 2^64 invalidations are applied, the `size_t`
generation is back at the value the snapshot carries, and `LoadContext` restores the saved
return-stack buffer with its prediction instead of an empty one. -/
theorem C8_counterexample_generation_wraps_around :
    ∃ s1, InvokeAll demoBackend
        { demoJit false 4096 [] 0 [] false with jit_state := demoGuest }
        (List.replicate (2 ^ 64) Op.ClearCache) = .ok s1 ∧
      AppliedInvalidations s1 = 2 ^ 64 ∧
      (LoadContext s1
        (SaveContext { demoJit false 4096 [] 0 [] false with jit_state := demoGuest })
        ).jit_state.rsb_location_descriptors = 0x1000 :: List.replicate 7 0xFFFFFFFFFFFFFFFF ∧
      (LoadContext s1
        (SaveContext { demoJit false 4096 [] 0 [] false with jit_state := demoGuest })
        ).jit_state.RSBIsReset = false := by
  obtain ⟨s1, h1, _, ha, hg⟩ := InvokeAll_ClearCache_replicate demoBackend (2 ^ 64)
    { demoJit false 4096 [] 0 [] false with jit_state := demoGuest } rfl
  have hg0 : s1.invalid_cache_generation = 0 := by
    rw [hg]
    simp [demoJit, SIZE_T_MOD]
  refine ⟨s1, h1, ?_, ?_, ?_⟩
  · rw [ha]
    simp [AppliedInvalidations, demoJit]
  · simp [LoadContext, SaveContext, SaveContextInto, TransferJitState, hg0, demoJit, demoGuest]
  · simp [LoadContext, SaveContext, SaveContextInto, TransferJitState, hg0, demoJit, demoGuest,
      JitState.RSBIsReset, RSBSize]

/-- C8 (amended): for a snapshot carrying the generation `SaveContext` captured in state `s`
(whatever return-stack buffer it holds) and every sequence of public calls after `s` that
returns and in which the number of applied invalidations, full or ranged, is not a multiple of
2^64 (so any number from 1 to 2^64 - 1), `LoadContext` leaves the return-stack buffer of the
engine reset. -/
theorem C8_load_after_invalidation_resets_rsb
    (B : Backend BlockOfCode EmitX64 IRBlock) (s s1 : Jit BlockOfCode EmitX64)
    (ops : List Op) (ctx : Context)
    (hctx : ctx.invalid_cache_generation = (SaveContext s).invalid_cache_generation)
    (hops : InvokeAll B s ops = .ok s1)
    (hk : (AppliedInvalidations s1 - AppliedInvalidations s) % SIZE_T_MOD ≠ 0) :
    (LoadContext s1 ctx).jit_state.RSBIsReset = true ∧
    (LoadContext s1 ctx).jit_state.rsb_location_descriptors =
      List.replicate RSBSize 0xFFFFFFFFFFFFFFFF ∧
    (LoadContext s1 ctx).jit_state.rsb_codeptrs = List.replicate RSBSize 0 := by
  obtain ⟨k, hcount, hgen⟩ := InvokeAll_tracks B ops s s1 hops
  have hne : ctx.invalid_cache_generation ≠ s1.invalid_cache_generation := by
    intro heq
    have hs : s1.invalid_cache_generation = s.invalid_cache_generation := by
      rw [← heq, hctx]; rfl
    rw [hs] at hgen
    have hk0 : k % SIZE_T_MOD = 0 := by
      have h2 : (s.invalid_cache_generation + 0) % SIZE_T_MOD =
          (s.invalid_cache_generation + k) % SIZE_T_MOD := by simpa using hgen
      have h3 := Nat.ModEq.add_left_cancel' s.invalid_cache_generation h2
      exact (Nat.ModEq.symm h3)
    apply hk
    rw [hcount, Nat.add_sub_cancel_left]
    exact hk0
  simp [LoadContext, TransferJitState, hne, JitState.ResetRSB, JitState.RSBIsReset]

/-- C8 witness: a snapshot of an engine with a prediction in its return-stack buffer, then a
run in which the guest calls `ClearCache`, a `SetCpsr` and an idle range invalidation (two
applied invalidations); loading the snapshot leaves the return-stack buffer reset. -/
theorem C8_load_after_invalidation_resets_rsb_witness :
    (∃ s1, InvokeAll demoBackend
        { demoJit false 0x4000000 [] 5 [] false with jit_state := demoGuest }
        [Op.Run 1 [Event.GetCurrentBlock, Event.ClearCache], Op.SetCpsr 5,
          Op.InvalidateCacheRange 0x1000 4] = .ok s1 ∧
      AppliedInvalidations s1 = 2 ∧
      (LoadContext s1
        (SaveContext { demoJit false 0x4000000 [] 5 [] false with jit_state := demoGuest })
        ).jit_state.RSBIsReset = true) ∧
    (SaveContext { demoJit false 0x4000000 [] 5 [] false with jit_state := demoGuest }
      ).jit_state.RSBIsReset = false :=
  ⟨⟨_, rfl, rfl,
    (C8_load_after_invalidation_resets_rsb demoBackend
      { demoJit false 0x4000000 [] 5 [] false with jit_state := demoGuest } _
      [Op.Run 1 [Event.GetCurrentBlock, Event.ClearCache], Op.SetCpsr 5,
        Op.InvalidateCacheRange 0x1000 4]
      (SaveContext { demoJit false 0x4000000 [] 5 [] false with jit_state := demoGuest })
      rfl rfl (by decide)).1⟩, by decide⟩

/-- C9 (as stated, refuted): on an executing engine `LoadContext` returns normally and
overwrites the guest state with the snapshot: the program counter goes from 0 to 0x1000 while
`is_executing` is still true. -/
theorem C9_counterexample_load_context_while_executing :
    (demoJit true 4096 [] 0 [] false).is_executing = true ∧
    Invoke demoBackend (demoJit true 4096 [] 0 [] false)
        (Op.LoadContext ⟨demoGuest, 0⟩) =
      .ok { demoJit true 4096 [] 0 [] false with jit_state := demoGuest } ∧
    (demoJit true 4096 [] 0 [] false).jit_state.Reg.getD 15 0 = 0 ∧
    (LoadContext (demoJit true 4096 [] 0 [] false) ⟨demoGuest, 0⟩).jit_state.Reg.getD 15 0
      = 0x1000 ∧
    (LoadContext (demoJit true 4096 [] 0 [] false) ⟨demoGuest, 0⟩).jit_state ≠
      (demoJit true 4096 [] 0 [] false).jit_state := by
  refine ⟨rfl, ?_, rfl, rfl, ?_⟩
  · simp [Invoke, LoadContext, TransferJitState, demoJit, demoGuest, JitState.default,
      JitState.ResetRSB]
  · decide

/-- C9 (amended): `LoadContext` has no guard. On an engine with `is_executing = true` the call
returns normally and does what it does on an idle engine: the guest state becomes the
transfer of the snapshot into it (return-stack buffer reset exactly when the generations
differ), `is_executing` stays true, and generation, pending requests, code buffer and block
table are untouched. -/
theorem C9_load_context_is_not_guarded
    (B : Backend BlockOfCode EmitX64 IRBlock) (s : Jit BlockOfCode EmitX64) (ctx : Context)
    (hx : s.is_executing = true) :
    Invoke B s (Op.LoadContext ctx) = .ok (LoadContext s ctx) ∧
    Invoke B s (Op.LoadContext ctx) ≠ .error Fault.executing ∧
    (LoadContext s ctx).jit_state =
      TransferJitState s.jit_state ctx.jit_state
        (decide (ctx.invalid_cache_generation ≠ s.invalid_cache_generation)) ∧
    (LoadContext s ctx).is_executing = true ∧
    (LoadContext s ctx).invalid_cache_generation = s.invalid_cache_generation ∧
    (LoadContext s ctx).invalid_cache_ranges = s.invalid_cache_ranges ∧
    (LoadContext s ctx).invalidate_entire_cache = s.invalidate_entire_cache ∧
    (LoadContext s ctx).block_of_code = s.block_of_code ∧
    (LoadContext s ctx).emitter = s.emitter := by
  refine ⟨rfl, ?_, rfl, hx, rfl, rfl, rfl, rfl, rfl⟩
  intro h
  cases h

/-- C9 witness: an executing engine takes over the registers of the snapshot. -/
theorem C9_load_context_is_not_guarded_witness :
    (demoJit true 4096 [] 0 [] false).is_executing = true ∧
    Invoke demoBackend (demoJit true 4096 [] 0 [] false) (Op.LoadContext ⟨demoGuest, 0⟩) =
      .ok (LoadContext (demoJit true 4096 [] 0 [] false) ⟨demoGuest, 0⟩) ∧
    (LoadContext (demoJit true 4096 [] 0 [] false) ⟨demoGuest, 0⟩).is_executing = true :=
  ⟨rfl,
    (C9_load_context_is_not_guarded demoBackend (demoJit true 4096 [] 0 [] false)
      ⟨demoGuest, 0⟩ rfl).1,
    (C9_load_context_is_not_guarded demoBackend (demoJit true 4096 [] 0 [] false)
      ⟨demoGuest, 0⟩ rfl).2.2.2.1⟩

theorem GetBasicBlock_error (B : Backend BlockOfCode EmitX64 IRBlock)
    (s : Jit BlockOfCode EmitX64) (descriptor : LocationDescriptor) (err : Fault)
    (h : GetBasicBlock B s descriptor = .error err) : err = Fault.verification := by
  unfold GetBasicBlock at h
  split at h
  · cases h
  · by_cases hv : B.VerificationPass (B.DeadCodeElimination (B.ConstantPropagation
        (B.DeadCodeElimination (B.GetSetElimination (B.Translate descriptor))))) = true
    · simp only [hv, if_true] at h
      cases h
    · simp only [hv, if_false] at h
      cases h
      rfl

theorem Execute_error (B : Backend BlockOfCode EmitX64 IRBlock) (events : List Event) :
    ∀ (s : Jit BlockOfCode EmitX64) (err : Fault),
      Execute B s events = .error err → err = Fault.verification := by
  induction events with
  | nil => intro s err h; cases h
  | cons e es ih =>
    intro s err h
    simp only [Execute] at h
    cases he : ExecuteEvent B s e with
    | ok s1 => rw [he] at h; exact ih s1 err h
    | error err1 =>
      rw [he] at h
      cases h
      cases e with
      | GetCurrentBlock =>
        simp only [ExecuteEvent, GetCurrentBlock] at he
        cases hg : GetBasicBlock B s (CurrentDescriptor B s.jit_state) with
        | ok r => rw [hg] at he; cases he
        | error err2 =>
          rw [hg] at he
          cases he
          exact GetBasicBlock_error B s _ _ hg
      | Guest f => cases he
      | ClearCache => cases he
      | InvalidateCacheRange a l => cases he
      | HaltExecution => cases he

/-- C10: `Run` and `Reset` end in the guard fault exactly when the engine is executing at the
call: with `is_executing = true` both abort with it (no state results), with
`is_executing = false` neither does, `Reset` returns, and `Run` returns whenever the
verification pass accepts every graph; a `Run` that returns leaves `is_executing = false`. -/
theorem C10_run_and_reset_guard
    (B : Backend BlockOfCode EmitX64 IRBlock) (s : Jit BlockOfCode EmitX64)
    (cycle_count : Nat) (events : List Event) :
    (Run B s cycle_count events = .error Fault.executing ↔ s.is_executing = true) ∧
    (Reset s = .error Fault.executing ↔ s.is_executing = true) ∧
    (s.is_executing = false → Reset s = .ok { s with jit_state := JitState.default }) ∧
    (s.is_executing = false → (∀ ir_block, B.VerificationPass ir_block = true) →
      ∃ s1, Run B s cycle_count events = .ok s1) ∧
    (∀ s1, Run B s cycle_count events = .ok s1 →
      s.is_executing = false ∧ s1.is_executing = false) := by
  refine ⟨?_, ?_, ?_, ?_, ?_⟩
  · constructor
    · intro h
      rcases Bool.eq_false_or_eq_true s.is_executing with hx | hx
      · exact hx
      · rw [Run_idle B s cycle_count events hx] at h
        cases h3 : Execute B (RunEntry s) events with
        | ok s3 => rw [h3] at h; cases h
        | error err =>
          rw [h3] at h
          have := Execute_error B events _ _ h3
          subst this
          cases h
    · intro hx
      simp [Run, hx]
  · constructor
    · intro h
      rcases Bool.eq_false_or_eq_true s.is_executing with hx | hx
      · exact hx
      · simp [Reset, hx] at h
    · intro hx
      simp [Reset, hx]
  · intro hx
    simp [Reset, hx]
  · intro hx hv
    exact Run_returns B s cycle_count events hx hv
  · intro s1 h
    rcases Bool.eq_false_or_eq_true s.is_executing with hx | hx
    · simp [Run, hx] at h
    · obtain ⟨s3, _, rfl⟩ := Run_ok_inv B s s1 cycle_count events hx h
      exact ⟨hx, rfl⟩

/-- C10 witness: on an executing engine `Run` and `Reset` abort at the guard; on an idle one
`Run` returns with `is_executing = false` and `Reset` returns. -/
theorem C10_run_and_reset_guard_witness :
    Run demoBackend (demoJit true 0x4000000 [] 5 [] false) 1 [Event.GetCurrentBlock] =
      .error Fault.executing ∧
    Reset (demoJit true 0x4000000 [] 5 [] false) = .error Fault.executing ∧
    Reset (demoJit false 0x4000000 [] 5 [] false) =
      .ok { demoJit false 0x4000000 [] 5 [] false with jit_state := JitState.default } ∧
    (∃ s1, Run demoBackend (demoJit false 0x4000000 [] 5 [] false) 1
        [Event.GetCurrentBlock, Event.HaltExecution] = .ok s1 ∧ s1.is_executing = false) := by
  refine ⟨?_, ?_, ?_, ?_⟩
  · exact (C10_run_and_reset_guard demoBackend (demoJit true 0x4000000 [] 5 [] false) 1
      [Event.GetCurrentBlock]).1.mpr rfl
  · exact (C10_run_and_reset_guard demoBackend (demoJit true 0x4000000 [] 5 [] false) 1
      [Event.GetCurrentBlock]).2.1.mpr rfl
  · exact (C10_run_and_reset_guard demoBackend (demoJit false 0x4000000 [] 5 [] false) 1
      [Event.GetCurrentBlock]).2.2.1 rfl
  · obtain ⟨s1, h1⟩ := (C10_run_and_reset_guard demoBackend
      (demoJit false 0x4000000 [] 5 [] false) 1
      [Event.GetCurrentBlock, Event.HaltExecution]).2.2.2.1 rfl (fun _ => rfl)
    exact ⟨s1, h1, ((C10_run_and_reset_guard demoBackend
      (demoJit false 0x4000000 [] 5 [] false) 1
      [Event.GetCurrentBlock, Event.HaltExecution]).2.2.2.2 s1 h1).2⟩

/-- C11: on an idle engine `Reset` returns, the guest state becomes the value-initialised one
(every general and extended register and every CPSR and FPSCR field zero, halt flag and
exclusive state cleared, return-stack buffer reset), and code buffer, block
table, generation, pending ranges, full-flush flag, guard and trace are as before. -/
theorem C11_reset_zeroes_guest_state_only (s : Jit BlockOfCode EmitX64)
    (hidle : s.is_executing = false) :
    Reset s = .ok { s with jit_state := JitState.default } ∧
    (∀ s1, Reset s = .ok s1 →
      s1.jit_state.Reg = List.replicate 16 0 ∧
      s1.jit_state.ExtReg = List.replicate 64 0 ∧
      s1.jit_state.CPSR_ge = 0 ∧ s1.jit_state.CPSR_et = 0 ∧ s1.jit_state.CPSR_q = 0 ∧
      s1.jit_state.CPSR_nzcv = 0 ∧ s1.jit_state.CPSR_jaifm = 0 ∧
      s1.jit_state.FPSCR_IDC = 0 ∧ s1.jit_state.FPSCR_UFC = 0 ∧
      s1.jit_state.FPSCR_mode = 0 ∧ s1.jit_state.FPSCR_nzcv = 0 ∧
      s1.jit_state.halt_requested = false ∧ s1.jit_state.exclusive_state = 0 ∧
      s1.jit_state.RSBIsReset = true ∧
      s1.block_of_code = s.block_of_code ∧
      s1.emitter = s.emitter ∧
      s1.invalid_cache_generation = s.invalid_cache_generation ∧
      s1.invalid_cache_ranges = s.invalid_cache_ranges ∧
      s1.invalidate_entire_cache = s.invalidate_entire_cache ∧
      s1.is_executing = false ∧
      s1.trace = s.trace) := by
  have h : Reset s = .ok { s with jit_state := JitState.default } := by
    simp [Reset, hidle]
  refine ⟨h, ?_⟩
  intro s1 h1
  rw [h] at h1
  cases h1
  simp [JitState.default, JitState.ResetRSB, JitState.RSBIsReset, hidle]

/-- C11 witness: an idle engine at generation 5 with a cached block, a pending range and a
prediction in its return-stack buffer. -/
theorem C11_reset_zeroes_guest_state_only_witness :
    Reset { demoJit false 4096 [(⟨0x1000, 0, 0⟩, ⟨0, 64⟩)] 5 [(1, 2)] false with
        jit_state := demoGuest } =
      .ok (demoJit false 4096 [(⟨0x1000, 0, 0⟩, ⟨0, 64⟩)] 5 [(1, 2)] false) ∧
    demoGuest.RSBIsReset = false :=
  ⟨(C11_reset_zeroes_guest_state_only
      { demoJit false 4096 [(⟨0x1000, 0, 0⟩, ⟨0, 64⟩)] 5 [(1, 2)] false with
        jit_state := demoGuest } rfl).1, by decide⟩

theorem GetBasicBlock_hit (B : Backend BlockOfCode EmitX64 IRBlock)
    (s : Jit BlockOfCode EmitX64) (descriptor : LocationDescriptor) (block : BlockDescriptor)
    (h : B.EmitX64_GetBasicBlock s.emitter descriptor = some block) :
    GetBasicBlock B s descriptor = .ok (block, s) := by
  simp [GetBasicBlock, h]

theorem GetBasicBlock_miss (B : Backend BlockOfCode EmitX64 IRBlock)
    (s : Jit BlockOfCode EmitX64) (descriptor : LocationDescriptor)
    (h : B.EmitX64_GetBasicBlock s.emitter descriptor = none) :
    GetBasicBlock B s descriptor =
      if B.VerificationPass (Pipeline B descriptor) = true then
        .ok ((B.EmitX64_Emit ((BeforeCompile B s).emitter, (BeforeCompile B s).block_of_code)
            (Pipeline B descriptor)).1,
          { BeforeCompile B s with
            emitter :=
              (B.EmitX64_Emit ((BeforeCompile B s).emitter, (BeforeCompile B s).block_of_code)
                (Pipeline B descriptor)).2.1
            block_of_code :=
              (B.EmitX64_Emit ((BeforeCompile B s).emitter, (BeforeCompile B s).block_of_code)
                (Pipeline B descriptor)).2.2
            trace :=
              (BeforeCompile B s).trace ++
                [Call.Translate descriptor, Call.EmitX64_Emit descriptor] })
      else .error Fault.verification := by
  simp only [GetBasicBlock, h]
  rfl

/-- C12: `GetBasicBlock` called again on the state the first call left, with no invalidation
in between, returns the same block descriptor and leaves that state as it is; and every call
on a cached key returns the cached descriptor with the engine state, trace included, unchanged
(no translation, no emission, no flush, whatever code space is left). The emitter is taken
to find the block it emitted for a key (`EmitCaches`); with a verification pass that accepts
every graph both calls return. -/
theorem C12_lookup_or_compile_idempotent
    (B : Backend BlockOfCode EmitX64 IRBlock) (s : Jit BlockOfCode EmitX64)
    (descriptor : LocationDescriptor) (hemit : EmitCaches B) :
    (∀ block s1, GetBasicBlock B s descriptor = .ok (block, s1) →
      GetBasicBlock B s1 descriptor = .ok (block, s1)) ∧
    (∀ block, B.EmitX64_GetBasicBlock s.emitter descriptor = some block →
      GetBasicBlock B s descriptor = .ok (block, s)) ∧
    ((∀ ir_block, B.VerificationPass ir_block = true) →
      ∃ block s1, GetBasicBlock B s descriptor = .ok (block, s1) ∧
        GetBasicBlock B s1 descriptor = .ok (block, s1)) := by
  have hfirst : ∀ block s1, GetBasicBlock B s descriptor = .ok (block, s1) →
      GetBasicBlock B s1 descriptor = .ok (block, s1) := by
    intro block s1 h
    cases hl : B.EmitX64_GetBasicBlock s.emitter descriptor with
    | some cached =>
      rw [GetBasicBlock_hit B s descriptor cached hl] at h
      have hb : cached = block ∧ s = s1 := by cases h; exact ⟨rfl, rfl⟩
      obtain ⟨rfl, rfl⟩ := hb
      exact GetBasicBlock_hit B s descriptor cached hl
    | none =>
      rw [GetBasicBlock_miss B s descriptor hl] at h
      split at h
      · cases h
        exact GetBasicBlock_hit B _ descriptor _ (hemit _ descriptor)
      · cases h
  refine ⟨hfirst, fun block h => GetBasicBlock_hit B s descriptor block h, ?_⟩
  intro hv
  obtain ⟨⟨block, s1⟩, hr⟩ := GetBasicBlock_returns B hv s descriptor
  exact ⟨block, s1, hr, hfirst block s1 hr⟩

theorem demoBackend_EmitCaches : EmitCaches demoBackend := by
  intro c descriptor
  simp [demoBackend, Pipeline]

/-- C12 witness: the key at 0x1000 is compiled by the first call with 100 bytes of code space
left (after a capacity flush) and found by the second. -/
theorem C12_lookup_or_compile_idempotent_witness :
    ∃ block s1, GetBasicBlock demoBackend (demoJit false 100 [] 5 [] false) ⟨0x1000, 0, 0⟩ =
        .ok (block, s1) ∧
      GetBasicBlock demoBackend s1 ⟨0x1000, 0, 0⟩ = .ok (block, s1) ∧
      block = ⟨0, 64⟩ :=
  ⟨_, _, rfl,
    (C12_lookup_or_compile_idempotent demoBackend (demoJit false 100 [] 5 [] false)
      ⟨0x1000, 0, 0⟩ demoBackend_EmitCaches).1 _ _ rfl, rfl⟩

/-- C13 (as stated, refuted): at the largest `size_t` generation the capacity flush of a miss
with 100 bytes of code space left does not make the generation one greater; the counter wraps
to zero. -/
theorem C13_counterexample_generation_wraps :
    ∃ block s1,
      GetBasicBlock demoBackend (demoJit false 100 [] (2 ^ 64 - 1) [] false) ⟨0x1000, 0, 0⟩ =
        .ok (block, s1) ∧
      s1.trace = [Call.ResetRSB, Call.BlockOfCode_ClearCache, Call.EmitX64_ClearCache,
        Call.Translate ⟨0x1000, 0, 0⟩, Call.EmitX64_Emit ⟨0x1000, 0, 0⟩] ∧
      s1.invalid_cache_generation = 0 ∧
      s1.invalid_cache_generation ≠
        (demoJit false 100 [] (2 ^ 64 - 1) [] false).invalid_cache_generation + 1 :=
  ⟨_, _, rfl, rfl, rfl, by decide⟩

/-- C13 (amended): for a key that is not cached, `GetBasicBlock` performs the full flush
(return-stack buffer reset, code buffer and block table cleared, pending ranges cleared,
full-flush flag false, generation stepped by one modulo 2^64, by exactly one below the largest
`size_t` value) before translation and emission exactly when less than 1 MiB (1048576 bytes)
of code space is left; with 1 MiB or more nothing is flushed and generation, guest state and
pending requests are unchanged. With a verification pass that accepts every graph the call
returns. -/
theorem C13_capacity_flush_iff_below_threshold
    (B : Backend BlockOfCode EmitX64 IRBlock) (s : Jit BlockOfCode EmitX64)
    (descriptor : LocationDescriptor)
    (hmiss : B.EmitX64_GetBasicBlock s.emitter descriptor = none) :
    MINIMUM_REMAINING_CODESIZE = 1048576 ∧
    (∀ block s1, GetBasicBlock B s descriptor = .ok (block, s1) →
      (B.SpaceRemaining s.block_of_code < 1048576 →
        s1.trace = s.trace ++
          [Call.ResetRSB, Call.BlockOfCode_ClearCache, Call.EmitX64_ClearCache,
            Call.Translate descriptor, Call.EmitX64_Emit descriptor] ∧
        s1.jit_state = s.jit_state.ResetRSB ∧
        s1.invalid_cache_ranges.empty = true ∧
        s1.invalidate_entire_cache = false ∧
        s1.invalid_cache_generation = (s.invalid_cache_generation + 1) % SIZE_T_MOD ∧
        (s.invalid_cache_generation + 1 < SIZE_T_MOD →
          s1.invalid_cache_generation = s.invalid_cache_generation + 1) ∧
        (block, s1.emitter, s1.block_of_code) =
          B.EmitX64_Emit
            (B.EmitX64_ClearCache (s.emitter, B.BlockOfCode_ClearCache s.block_of_code))
            (Pipeline B descriptor)) ∧
      (1048576 ≤ B.SpaceRemaining s.block_of_code →
        s1.trace = s.trace ++ [Call.Translate descriptor, Call.EmitX64_Emit descriptor] ∧
        s1.jit_state = s.jit_state ∧
        s1.invalid_cache_ranges = s.invalid_cache_ranges ∧
        s1.invalidate_entire_cache = s.invalidate_entire_cache ∧
        s1.invalid_cache_generation = s.invalid_cache_generation ∧
        (block, s1.emitter, s1.block_of_code) =
          B.EmitX64_Emit (s.emitter, s.block_of_code) (Pipeline B descriptor)) ∧
      AppliedInvalidations s1 = AppliedInvalidations s +
        (if B.SpaceRemaining s.block_of_code < 1048576 then 1 else 0)) ∧
    ((∀ ir_block, B.VerificationPass ir_block = true) →
      ∃ r, GetBasicBlock B s descriptor = .ok r) := by
  have hmin : MINIMUM_REMAINING_CODESIZE = 1048576 := by decide
  refine ⟨hmin, ?_, fun hv => GetBasicBlock_returns B hv s descriptor⟩
  intro block s1 h
  rw [GetBasicBlock_miss B s descriptor hmiss] at h
  split at h
  swap
  · cases h
  have hb : block = (B.EmitX64_Emit ((BeforeCompile B s).emitter,
        (BeforeCompile B s).block_of_code) (Pipeline B descriptor)).1 ∧
      s1 = { BeforeCompile B s with
        emitter := (B.EmitX64_Emit ((BeforeCompile B s).emitter,
          (BeforeCompile B s).block_of_code) (Pipeline B descriptor)).2.1
        block_of_code := (B.EmitX64_Emit ((BeforeCompile B s).emitter,
          (BeforeCompile B s).block_of_code) (Pipeline B descriptor)).2.2
        trace := (BeforeCompile B s).trace ++
          [Call.Translate descriptor, Call.EmitX64_Emit descriptor] } := by
    cases h
    exact ⟨rfl, rfl⟩
  obtain ⟨hblock, hs1⟩ := hb
  by_cases hsp : B.SpaceRemaining s.block_of_code < 1048576
  · have hbc : BeforeCompile B s =
        PerformCacheInvalidation B { s with invalidate_entire_cache := true } := by
      simp [BeforeCompile, hmin, hsp]
    rw [PerformCacheInvalidation_full B { s with invalidate_entire_cache := true } rfl] at hbc
    rw [hbc] at hs1 hblock
    refine ⟨fun _ => ?_, fun hge => absurd hsp (by omega), ?_⟩
    · subst hs1 hblock
      refine ⟨by simp, rfl, rfl, rfl, rfl, fun hlt => Nat.mod_eq_of_lt hlt, rfl⟩
    · subst hs1
      simp [AppliedInvalidations, hsp, List.countP_append, List.countP_cons, Call.isFlush]
  · have hbc : BeforeCompile B s = s := by
      simp [BeforeCompile, hmin, hsp]
    rw [hbc] at hs1 hblock
    refine ⟨fun hlt => absurd hlt hsp, fun _ => ?_, ?_⟩
    · subst hs1 hblock
      exact ⟨rfl, rfl, rfl, rfl, rfl, rfl⟩
    · subst hs1
      simp [AppliedInvalidations, hsp, List.countP_append, List.countP_cons, Call.isFlush]

/-- C13 witness: a miss with one byte less than 1 MiB left flushes (generation 5 to 6), a miss
with exactly 1 MiB left does not (generation stays 5). -/
theorem C13_capacity_flush_iff_below_threshold_witness :
    (∃ block s1,
      GetBasicBlock demoBackend (demoJit false 1048575 [] 5 [] false) ⟨0x1000, 0, 0⟩ =
        .ok (block, s1) ∧
      s1.invalid_cache_generation = 5 + 1 ∧ AppliedInvalidations s1 = 1) ∧
    (∃ block s1,
      GetBasicBlock demoBackend (demoJit false 1048576 [] 5 [] false) ⟨0x1000, 0, 0⟩ =
        .ok (block, s1) ∧
      s1.invalid_cache_generation = 5 ∧ AppliedInvalidations s1 = 0) :=
  ⟨⟨_, _, rfl,
    (((C13_capacity_flush_iff_below_threshold demoBackend
      (demoJit false 1048575 [] 5 [] false) ⟨0x1000, 0, 0⟩ rfl).2.1 _ _ rfl).1
        (by decide)).2.2.2.2.2.1 (by decide),
    rfl⟩,
   ⟨_, _, rfl,
    (((C13_capacity_flush_iff_below_threshold demoBackend
      (demoJit false 1048576 [] 5 [] false) ⟨0x1000, 0, 0⟩ rfl).2.1 _ _ rfl).2.1
        (by decide)).2.2.2.2.1,
    rfl⟩⟩

/-- C14 (as stated, refuted): `Disassemble` of a key that is not cached compiles the block,
so the block table changes; and with 100 bytes of code space left it first flushes: the
generation goes from 5 to 6 and the prediction in the return-stack buffer is gone. -/
theorem C14_counterexample_disassemble_compiles_and_flushes :
    (∃ block s1,
      Disassemble demoBackend
          { demoJit false 0x4000000 [] 5 [] false with jit_state := demoGuest }
          ⟨0x1000, 0, 0⟩ = .ok (block, s1) ∧
        s1.emitter = ⟨[(⟨0x1000, 0, 0⟩, ⟨0x4000000, 64⟩)]⟩ ∧
        s1.emitter ≠
          ({ demoJit false 0x4000000 [] 5 [] false with jit_state := demoGuest } :
            Jit DemoBlockOfCode DemoEmitX64).emitter) ∧
    (∃ block s1,
      Disassemble demoBackend { demoJit false 100 [] 5 [] false with jit_state := demoGuest }
          ⟨0x1000, 0, 0⟩ = .ok (block, s1) ∧
        s1.invalid_cache_generation = 6 ∧
        s1.jit_state.RSBIsReset = true ∧
        demoGuest.RSBIsReset = false) :=
  ⟨⟨_, _, rfl, rfl, by decide⟩, ⟨_, _, rfl, rfl, by decide, by decide⟩⟩

/-- C14 (amended): `Disassemble` of a cached key leaves the whole engine state as it was.
For a key that is not cached it compiles the block as `GetBasicBlock` does: code buffer and
block table gain the block, and with at least 1 MiB of code space left generation, pending
requests and guest state are still as before (with less, the capacity flush comes first).
In no case are the guard or the guest registers and flags changed. With a verification pass
that accepts every graph the call returns. -/
theorem C14_disassemble_reads_only_cached_keys
    (B : Backend BlockOfCode EmitX64 IRBlock) (s : Jit BlockOfCode EmitX64)
    (descriptor : LocationDescriptor) :
    (∀ cached, B.EmitX64_GetBasicBlock s.emitter descriptor = some cached →
      Disassemble B s descriptor = .ok (cached, s)) ∧
    (∀ block s1, Disassemble B s descriptor = .ok (block, s1) →
      s1.is_executing = s.is_executing ∧
      TransferJitState s.jit_state s1.jit_state true =
        TransferJitState s.jit_state s.jit_state true ∧
      s1.jit_state.halt_requested = s.jit_state.halt_requested ∧
      s1.jit_state.exclusive_state = s.jit_state.exclusive_state ∧
      (B.EmitX64_GetBasicBlock s.emitter descriptor = none →
        MINIMUM_REMAINING_CODESIZE ≤ B.SpaceRemaining s.block_of_code →
          s1.invalid_cache_generation = s.invalid_cache_generation ∧
          s1.invalid_cache_ranges = s.invalid_cache_ranges ∧
          s1.invalidate_entire_cache = s.invalidate_entire_cache ∧
          s1.jit_state = s.jit_state ∧
          s1.trace = s.trace ++ [Call.Translate descriptor, Call.EmitX64_Emit descriptor] ∧
          (block, s1.emitter, s1.block_of_code) =
            B.EmitX64_Emit (s.emitter, s.block_of_code) (Pipeline B descriptor))) ∧
    ((∀ ir_block, B.VerificationPass ir_block = true) →
      ∃ r, Disassemble B s descriptor = .ok r) := by
  refine ⟨fun cached h => GetBasicBlock_hit B s descriptor cached h, ?_,
    fun hv => GetBasicBlock_returns B hv s descriptor⟩
  intro block s1 h
  unfold Disassemble at h
  cases hl : B.EmitX64_GetBasicBlock s.emitter descriptor with
  | some cached =>
    rw [GetBasicBlock_hit B s descriptor cached hl] at h
    have hb : cached = block ∧ s = s1 := by cases h; exact ⟨rfl, rfl⟩
    obtain ⟨rfl, rfl⟩ := hb
    exact ⟨rfl, rfl, rfl, rfl, fun hn => by cases hn⟩
  | none =>
    rw [GetBasicBlock_miss B s descriptor hl] at h
    split at h
    swap
    · cases h
    have hb : block = (B.EmitX64_Emit ((BeforeCompile B s).emitter,
          (BeforeCompile B s).block_of_code) (Pipeline B descriptor)).1 ∧
        s1 = { BeforeCompile B s with
          emitter := (B.EmitX64_Emit ((BeforeCompile B s).emitter,
            (BeforeCompile B s).block_of_code) (Pipeline B descriptor)).2.1
          block_of_code := (B.EmitX64_Emit ((BeforeCompile B s).emitter,
            (BeforeCompile B s).block_of_code) (Pipeline B descriptor)).2.2
          trace := (BeforeCompile B s).trace ++
            [Call.Translate descriptor, Call.EmitX64_Emit descriptor] } := by
      cases h
      exact ⟨rfl, rfl⟩
    obtain ⟨hblock, hs1⟩ := hb
    by_cases hsp : B.SpaceRemaining s.block_of_code < MINIMUM_REMAINING_CODESIZE
    · have hbc : BeforeCompile B s =
          PerformCacheInvalidation B { s with invalidate_entire_cache := true } := by
        simp [BeforeCompile, hsp]
      rw [PerformCacheInvalidation_full B { s with invalidate_entire_cache := true } rfl] at hbc
      rw [hbc] at hs1
      subst hs1
      refine ⟨rfl, ?_, rfl, rfl, fun _ hge => absurd hsp (by omega)⟩
      simp [TransferJitState, JitState.ResetRSB]
    · have hbc : BeforeCompile B s = s := by
        simp [BeforeCompile, hsp]
      rw [hbc] at hs1 hblock
      subst hs1 hblock
      exact ⟨rfl, rfl, rfl, rfl, fun _ _ => ⟨rfl, rfl, rfl, rfl, rfl, rfl⟩⟩

/-- C14 witness: the block at 0x1000 is cached; disassembling it changes nothing. -/
theorem C14_disassemble_reads_only_cached_keys_witness :
    Disassemble demoBackend
        { demoJit false 100 [(⟨0x1000, 0, 0⟩, ⟨0, 64⟩)] 5 [] false with jit_state := demoGuest }
        ⟨0x1000, 0, 0⟩ =
      .ok (⟨0, 64⟩,
        { demoJit false 100 [(⟨0x1000, 0, 0⟩, ⟨0, 64⟩)] 5 [] false with
          jit_state := demoGuest }) :=
  (C14_disassemble_reads_only_cached_keys demoBackend
    { demoJit false 100 [(⟨0x1000, 0, 0⟩, ⟨0, 64⟩)] 5 [] false with jit_state := demoGuest }
    ⟨0x1000, 0, 0⟩).1 ⟨0, 64⟩ rfl

theorem PerformCacheInvalidation_is_executing (B : Backend BlockOfCode EmitX64 IRBlock)
    (s : Jit BlockOfCode EmitX64) :
    (PerformCacheInvalidation B s).is_executing = s.is_executing := by
  unfold PerformCacheInvalidation
  split
  · rfl
  · split <;> rfl

theorem PerformCacheInvalidation_clean (B : Backend BlockOfCode EmitX64 IRBlock)
    (s : Jit BlockOfCode EmitX64) (hidle : s.is_executing = false) :
    IdleClean (PerformCacheInvalidation B s) := by
  have hp := PerformCacheInvalidation_not_pending B s
  unfold Pending at hp
  simp only [Bool.or_eq_false_iff, Bool.not_eq_false'] at hp
  exact ⟨(PerformCacheInvalidation_is_executing B s).trans hidle, hp.1, hp.2⟩

theorem GetBasicBlock_clean (B : Backend BlockOfCode EmitX64 IRBlock)
    (s : Jit BlockOfCode EmitX64) (descriptor : LocationDescriptor)
    (r : BlockDescriptor × Jit BlockOfCode EmitX64) (hs : IdleClean s)
    (h : GetBasicBlock B s descriptor = .ok r) : IdleClean r.2 := by
  rcases GetBasicBlock_ok_inv B s descriptor r h with h | ⟨s1, em, boc, hs1, hr⟩
  · rw [h]; exact hs
  · rw [hr]
    have h1 : IdleClean s1 := by
      rcases hs1 with rfl | rfl
      · exact hs
      · exact PerformCacheInvalidation_clean B _ hs.1
    exact h1

theorem Invoke_clean (B : Backend BlockOfCode EmitX64 IRBlock) (s s1 : Jit BlockOfCode EmitX64)
    (op : Op) (hs : IdleClean s) (h : Invoke B s op = .ok s1) : IdleClean s1 := by
  cases op with
  | Run cycle_count events =>
    obtain ⟨s3, _, rfl⟩ := Run_ok_inv B s s1 cycle_count events hs.1 h
    have hp := PerformCacheInvalidation_not_pending B s3
    unfold Pending at hp
    simp only [Bool.or_eq_false_iff, Bool.not_eq_false'] at hp
    exact ⟨rfl, hp.1, hp.2⟩
  | ClearCache =>
    cases h
    rw [ClearCache_idle B s hs.1]
    exact PerformCacheInvalidation_clean B _ hs.1
  | InvalidateCacheRange a l =>
    cases h
    have : InvalidateCacheRange B s a l =
        PerformCacheInvalidation B
          { s with invalid_cache_ranges := s.invalid_cache_ranges.add a (RangeUpper a l) } := by
      simp [InvalidateCacheRange, RequestCacheInvalidation, hs.1]
    rw [this]
    exact PerformCacheInvalidation_clean B _ hs.1
  | Reset =>
    simp only [Invoke, Reset] at h
    split at h
    · cases h
    · cases h; exact hs
  | HaltExecution => cases h; exact hs
  | SetCpsr value => cases h; exact hs
  | ClearExclusiveState => cases h; exact hs
  | SetFpscr value => cases h; exact hs
  | SaveContext => cases h; exact hs
  | LoadContext ctx => cases h; exact hs
  | Disassemble descriptor =>
    simp only [Invoke, Disassemble] at h
    cases hg : GetBasicBlock B s descriptor with
    | error err => rw [hg] at h; cases h
    | ok r =>
      rw [hg] at h
      cases h
      exact GetBasicBlock_clean B s descriptor r hs hg

theorem InvokeAll_clean (B : Backend BlockOfCode EmitX64 IRBlock) (ops : List Op) :
    ∀ s s1 : Jit BlockOfCode EmitX64, IdleClean s → InvokeAll B s ops = .ok s1 →
      IdleClean s1 := by
  induction ops with
  | nil => intro s s1 hs h; cases h; exact hs
  | cons op ops ih =>
    intro s s1 hs h
    simp only [InvokeAll] at h
    cases ho : Invoke B s op with
    | error err => rw [ho] at h; cases h
    | ok s2 =>
      rw [ho] at h
      exact ih s2 s1 (Invoke_clean B s s2 op hs ho) h

theorem Invoke_returns (B : Backend BlockOfCode EmitX64 IRBlock) (s : Jit BlockOfCode EmitX64)
    (op : Op) (hidle : s.is_executing = false)
    (hv : ∀ ir_block, B.VerificationPass ir_block = true) :
    ∃ s1, Invoke B s op = .ok s1 := by
  cases op with
  | Run cycle_count events => exact Run_returns B s cycle_count events hidle hv
  | ClearCache => exact ⟨_, rfl⟩
  | InvalidateCacheRange a l => exact ⟨_, rfl⟩
  | Reset => exact ⟨{ s with jit_state := JitState.default }, by simp [Invoke, Reset, hidle]⟩
  | HaltExecution => exact ⟨_, rfl⟩
  | SetCpsr value => exact ⟨_, rfl⟩
  | ClearExclusiveState => exact ⟨_, rfl⟩
  | SetFpscr value => exact ⟨_, rfl⟩
  | SaveContext => exact ⟨_, rfl⟩
  | LoadContext ctx => exact ⟨_, rfl⟩
  | Disassemble descriptor =>
    obtain ⟨r, hr⟩ := GetBasicBlock_returns B hv s descriptor
    exact ⟨r.2, by simp only [Invoke, Disassemble, hr]⟩

theorem InvokeAll_returns (B : Backend BlockOfCode EmitX64 IRBlock)
    (hv : ∀ ir_block, B.VerificationPass ir_block = true) (ops : List Op) :
    ∀ s : Jit BlockOfCode EmitX64, IdleClean s → ∃ s1, InvokeAll B s ops = .ok s1 := by
  induction ops with
  | nil => intro s _; exact ⟨s, rfl⟩
  | cons op ops ih =>
    intro s hs
    obtain ⟨s2, h2⟩ := Invoke_returns B s op hs.1 hv
    obtain ⟨s1, h1⟩ := ih s2 (Invoke_clean B s s2 op hs h2)
    exact ⟨s1, by simp only [InvokeAll, h2, h1]⟩

/-- C20: from a freshly constructed engine, after every sequence of public calls that returns
(`Run` with arbitrary guest events, `ClearCache`, `InvalidateCacheRange`, `Reset`,
`HaltExecution`, register setters, `SaveContext`, `LoadContext`, `Disassemble`) the engine is
idle, the full-flush flag is false and the pending range set is empty; every prefix of the
sequence is such a sequence, so this holds between any two public calls. With a verification
pass that accepts every graph every such sequence returns. -/
theorem C20_idle_engine_has_nothing_pending
    (B : Backend BlockOfCode EmitX64 IRBlock) (block_of_code : BlockOfCode) (emitter : EmitX64)
    (ops : List Op) :
    (∀ s1, InvokeAll B (NewJit block_of_code emitter) ops = .ok s1 →
      s1.is_executing = false ∧ s1.invalidate_entire_cache = false ∧
        s1.invalid_cache_ranges.empty = true) ∧
    (∀ before after s1, ops = before ++ after →
      InvokeAll B (NewJit block_of_code emitter) ops = .ok s1 →
      ∃ s0, InvokeAll B (NewJit block_of_code emitter) before = .ok s0 ∧
        InvokeAll B s0 after = .ok s1 ∧
        s0.is_executing = false ∧ s0.invalidate_entire_cache = false ∧
        s0.invalid_cache_ranges.empty = true) ∧
    ((∀ ir_block, B.VerificationPass ir_block = true) →
      ∃ s1, InvokeAll B (NewJit block_of_code emitter) ops = .ok s1) := by
  have hnew : IdleClean (NewJit block_of_code emitter) := ⟨rfl, rfl, rfl⟩
  refine ⟨fun s1 h => InvokeAll_clean B ops _ s1 hnew h, ?_,
    fun hv => InvokeAll_returns B hv ops _ hnew⟩
  intro before after s1 hsplit h
  subst hsplit
  have happ : ∀ (l1 l2 : List Op) (s s2 : Jit BlockOfCode EmitX64),
      InvokeAll B s (l1 ++ l2) = .ok s2 →
      ∃ s0, InvokeAll B s l1 = .ok s0 ∧ InvokeAll B s0 l2 = .ok s2 := by
    intro l1
    induction l1 with
    | nil => intro l2 s s2 h; exact ⟨s, rfl, h⟩
    | cons op l1 ih =>
      intro l2 s s2 h
      simp only [List.cons_append, InvokeAll] at h ⊢
      cases ho : Invoke B s op with
      | error err => rw [ho] at h; cases h
      | ok s3 =>
        rw [ho] at h
        exact ih l2 s3 s2 h
  obtain ⟨s0, h0, h1⟩ := happ before after _ s1 h
  exact ⟨s0, h0, h1, InvokeAll_clean B before _ s0 hnew h0⟩

/-- C20 witness: a fresh engine runs guest code that compiles a block and requests a ranged and
a full invalidation, then the embedder invalidates a range, disassembles a key and resets;
afterwards the engine is idle with nothing pending, after two applied invalidations. -/
theorem C20_idle_engine_has_nothing_pending_witness :
    ∃ s1, InvokeAll demoBackend (NewJit ⟨0x4000000⟩ ⟨[]⟩)
        [Op.Run 100 [Event.GetCurrentBlock, Event.InvalidateCacheRange 0 16, Event.ClearCache,
            Event.HaltExecution],
          Op.InvalidateCacheRange 0x1000 4, Op.Disassemble ⟨0x1000, 0, 0⟩, Op.Reset] = .ok s1 ∧
      s1.is_executing = false ∧ s1.invalidate_entire_cache = false ∧
      s1.invalid_cache_ranges.empty = true ∧ s1.invalid_cache_generation = 2 :=
  ⟨_, rfl,
    ((C20_idle_engine_has_nothing_pending demoBackend ⟨0x4000000⟩ ⟨[]⟩
      [Op.Run 100 [Event.GetCurrentBlock, Event.InvalidateCacheRange 0 16, Event.ClearCache,
          Event.HaltExecution],
        Op.InvalidateCacheRange 0x1000 4, Op.Disassemble ⟨0x1000, 0, 0⟩, Op.Reset]).1 _ rfl).1,
    rfl, rfl, rfl⟩

open IR

theorem IsImmediate_eq_Chase (block : List Inst) (fuel : Nat) (v : Value) :
    Value.IsImmediate block fuel v =
      Chase block (fun _ => Outcome.ok false) (fun _ => Outcome.ok true) fuel v := by
  induction fuel generalizing v with
  | zero => cases v <;> simp [Value.IsImmediate, Chase]
  | succ fuel ih => cases v <;> simp [Value.IsImmediate, Chase, ih]

theorem GetType_eq_Chase (block : List Inst) (fuel : Nat) (v : Value) :
    Value.GetType block fuel v =
      Chase block (fun node => Outcome.ok node.GetType) (fun v => Outcome.ok v.type) fuel v := by
  induction fuel generalizing v with
  | zero => cases v <;> simp [Value.GetType, Chase]
  | succ fuel ih => cases v <;> simp [Value.GetType, Chase, ih]

theorem GetU1_eq_Chase (block : List Inst) (fuel : Nat) (v : Value) :
    Value.GetU1 block fuel v =
      Chase block (fun _ => Outcome.assert_failed)
        (fun v => match v with
          | .U1 x => Outcome.ok x
          | _ => Outcome.assert_failed) fuel v := by
  induction fuel generalizing v with
  | zero => cases v <;> simp [Value.GetU1, Chase]
  | succ fuel ih => cases v <;> simp [Value.GetU1, Chase, ih]

theorem GetU8_eq_Chase (block : List Inst) (fuel : Nat) (v : Value) :
    Value.GetU8 block fuel v =
      Chase block (fun _ => Outcome.assert_failed)
        (fun v => match v with
          | .U8 x => Outcome.ok x
          | _ => Outcome.assert_failed) fuel v := by
  induction fuel generalizing v with
  | zero => cases v <;> simp [Value.GetU8, Chase]
  | succ fuel ih => cases v <;> simp [Value.GetU8, Chase, ih]

theorem GetU16_eq_Chase (block : List Inst) (fuel : Nat) (v : Value) :
    Value.GetU16 block fuel v =
      Chase block (fun _ => Outcome.assert_failed)
        (fun v => match v with
          | .U16 x => Outcome.ok x
          | _ => Outcome.assert_failed) fuel v := by
  induction fuel generalizing v with
  | zero => cases v <;> simp [Value.GetU16, Chase]
  | succ fuel ih => cases v <;> simp [Value.GetU16, Chase, ih]

theorem GetU32_eq_Chase (block : List Inst) (fuel : Nat) (v : Value) :
    Value.GetU32 block fuel v =
      Chase block (fun _ => Outcome.assert_failed)
        (fun v => match v with
          | .U32 x => Outcome.ok x
          | _ => Outcome.assert_failed) fuel v := by
  induction fuel generalizing v with
  | zero => cases v <;> simp [Value.GetU32, Chase]
  | succ fuel ih => cases v <;> simp [Value.GetU32, Chase, ih]

theorem GetU64_eq_Chase (block : List Inst) (fuel : Nat) (v : Value) :
    Value.GetU64 block fuel v =
      Chase block (fun _ => Outcome.assert_failed)
        (fun v => match v with
          | .U64 x => Outcome.ok x
          | _ => Outcome.assert_failed) fuel v := by
  induction fuel generalizing v with
  | zero => cases v <;> simp [Value.GetU64, Chase]
  | succ fuel ih => cases v <;> simp [Value.GetU64, Chase, ih]

theorem GetCoprocInfo_eq_Chase (block : List Inst) (fuel : Nat) (v : Value) :
    Value.GetCoprocInfo block fuel v =
      Chase block (fun _ => Outcome.assert_failed)
        (fun v => match v with
          | .CoprocInfo x => Outcome.ok x
          | _ => Outcome.assert_failed) fuel v := by
  induction fuel generalizing v with
  | zero => cases v <;> simp [Value.GetCoprocInfo, Chase]
  | succ fuel ih => cases v <;> simp [Value.GetCoprocInfo, Chase, ih]

theorem Chase_not_identity {α : Type} (block : List Inst) (onNode : Inst → Outcome α)
    (onValue : Value → Outcome α) (v : Value) (hv : NotIdentityRef block v = true)
    (fuel fuel2 : Nat) :
    Chase block onNode onValue fuel v = Chase block onNode onValue fuel2 v := by
  cases v with
  | Opaque inst =>
    cases hb : block[inst]? with
    | none => cases fuel <;> cases fuel2 <;> simp [Chase, hb]
    | some node =>
      simp only [NotIdentityRef, hb, Bool.not_eq_true', decide_eq_false_iff_not] at hv
      cases fuel <;> cases fuel2 <;> simp [Chase, hb, hv]
  | _ => cases fuel <;> cases fuel2 <;> simp [Chase]

theorem Chase_chain {α : Type} (block : List Inst) (onNode : Inst → Outcome α)
    (onValue : Value → Outcome α) (v : Value) (hv : NotIdentityRef block v = true) (n : Nat) :
    ∀ (w : Value) (fuel fuel2 : Nat), IdentityChain block n w v = true → n ≤ fuel →
      Chase block onNode onValue fuel w = Chase block onNode onValue fuel2 v := by
  induction n with
  | zero =>
    intro w fuel fuel2 hc _
    simp only [IdentityChain, decide_eq_true_eq] at hc
    subst hc
    exact Chase_not_identity block onNode onValue w hv fuel fuel2
  | succ n ih =>
    intro w fuel fuel2 hc hle
    cases w with
    | Opaque inst =>
      simp only [IdentityChain] at hc
      cases hb : block[inst]? with
      | none => rw [hb] at hc; simp at hc
      | some node =>
        rw [hb] at hc
        simp only [Bool.and_eq_true, decide_eq_true_eq] at hc
        obtain ⟨hop, harg⟩ := hc
        cases ha : node.GetArg 0 with
        | none => rw [ha] at harg; simp at harg
        | some arg =>
          rw [ha] at harg
          obtain ⟨f, rfl⟩ : ∃ f, fuel = f + 1 := ⟨fuel - 1, by omega⟩
          have hstep : Chase block onNode onValue (f + 1) (Value.Opaque inst) =
              Chase block onNode onValue f arg := by
            simp [Chase, hb, hop, ha]
          rw [hstep]
          exact ih arg f fuel2 harg (by omega)
    | _ => simp [IdentityChain] at hc

/-- C15: if `w` is a reference to a chain of `n` nested `Identity` instructions whose innermost
first argument `v` is not itself a reference to an `Identity` instruction, then, on any
budget of at least `n` hops, `GetType`, `IsImmediate`, `GetU1`, `GetU8`, `GetU16`, `GetU32`,
`GetU64` and `GetCoprocInfo` end on `w` exactly as they end on `v` (same value or same
failure). -/
theorem C15_identity_folding_is_transparent (block : List Inst) (n : Nat) (w v : Value)
    (fuel fuel2 : Nat) (hv : NotIdentityRef block v = true)
    (hchain : IdentityChain block n w v = true) (hfuel : n ≤ fuel) :
    Value.GetType block fuel w = Value.GetType block fuel2 v ∧
    Value.IsImmediate block fuel w = Value.IsImmediate block fuel2 v ∧
    Value.GetU1 block fuel w = Value.GetU1 block fuel2 v ∧
    Value.GetU8 block fuel w = Value.GetU8 block fuel2 v ∧
    Value.GetU16 block fuel w = Value.GetU16 block fuel2 v ∧
    Value.GetU32 block fuel w = Value.GetU32 block fuel2 v ∧
    Value.GetU64 block fuel w = Value.GetU64 block fuel2 v ∧
    Value.GetCoprocInfo block fuel w = Value.GetCoprocInfo block fuel2 v := by
  refine ⟨?_, ?_, ?_, ?_, ?_, ?_, ?_, ?_⟩
  · rw [GetType_eq_Chase, GetType_eq_Chase]
    exact Chase_chain block _ _ v hv n w fuel fuel2 hchain hfuel
  · rw [IsImmediate_eq_Chase, IsImmediate_eq_Chase]
    exact Chase_chain block _ _ v hv n w fuel fuel2 hchain hfuel
  · rw [GetU1_eq_Chase, GetU1_eq_Chase]
    exact Chase_chain block _ _ v hv n w fuel fuel2 hchain hfuel
  · rw [GetU8_eq_Chase, GetU8_eq_Chase]
    exact Chase_chain block _ _ v hv n w fuel fuel2 hchain hfuel
  · rw [GetU16_eq_Chase, GetU16_eq_Chase]
    exact Chase_chain block _ _ v hv n w fuel fuel2 hchain hfuel
  · rw [GetU32_eq_Chase, GetU32_eq_Chase]
    exact Chase_chain block _ _ v hv n w fuel fuel2 hchain hfuel
  · rw [GetU64_eq_Chase, GetU64_eq_Chase]
    exact Chase_chain block _ _ v hv n w fuel fuel2 hchain hfuel
  · rw [GetCoprocInfo_eq_Chase, GetCoprocInfo_eq_Chase]
    exact Chase_chain block _ _ v hv n w fuel fuel2 hchain hfuel

/-- C15 witness: instruction 3 of the example block is a chain of three identities ending at
the byte 7: `GetU8` gives 7, `GetType` gives `U8`, `IsImmediate` is true and `GetU32` fails
its assertion, as on the byte itself. -/
theorem C15_identity_folding_is_transparent_witness :
    IdentityChain demoBlock 3 (Value.Opaque 3) (Value.U8 7) = true ∧
    Value.GetU8 demoBlock 3 (Value.Opaque 3) = Outcome.ok 7 ∧
    Value.GetType demoBlock 3 (Value.Opaque 3) = Outcome.ok IRType.U8 ∧
    Value.IsImmediate demoBlock 3 (Value.Opaque 3) = Outcome.ok true ∧
    Value.GetU32 demoBlock 3 (Value.Opaque 3) = Outcome.assert_failed := by
  have h := C15_identity_folding_is_transparent demoBlock 3 (Value.Opaque 3) (Value.U8 7) 3 0
    rfl rfl (Nat.le_refl 3)
  exact ⟨rfl, h.2.2.2.1, h.1, h.2.1, h.2.2.2.2.2.1⟩

/-- C16 (as stated, refuted): instruction 4 of the example block is an `Identity` whose chain
ends at register reference 3, and `GetRegRef` on the reference to it fails its assertion
instead of returning 3; likewise `GetExtRegRef` on an identity of an extended register
reference. -/
theorem C16_counterexample_regref_through_identity :
    IdentityChain demoBlock 1 (Value.Opaque 4) (Value.RegRef 3) = true ∧
    Value.GetRegRef (Value.Opaque 4) = Outcome.assert_failed ∧
    Value.GetRegRef (Value.Opaque 4) ≠ Outcome.ok 3 ∧
    Value.GetRegRef (Value.RegRef 3) = Outcome.ok 3 ∧
    IdentityChain [⟨Opcode.Identity, [Value.ExtRegRef 9], IRType.Opaque⟩] 1 (Value.Opaque 0)
      (Value.ExtRegRef 9) = true ∧
    Value.GetExtRegRef (Value.Opaque 0) = Outcome.assert_failed := by
  decide

/-- C16 (amended): `GetRegRef` and `GetExtRegRef` do not follow identities. On every
reference to an instruction, whatever its identity chain ends at, they fail the assertion on
the tag; `GetRegRef` returns `r` exactly on the register reference `r` itself and
`GetExtRegRef` returns `e` exactly on the extended register reference `e` itself. -/
theorem C16_register_reference_accessors_are_direct (w : Value) (inst r e : Nat) :
    Value.GetRegRef (Value.Opaque inst) = Outcome.assert_failed ∧
    Value.GetExtRegRef (Value.Opaque inst) = Outcome.assert_failed ∧
    Value.GetRegRef (Value.RegRef r) = Outcome.ok r ∧
    Value.GetExtRegRef (Value.ExtRegRef e) = Outcome.ok e ∧
    (Value.GetRegRef w = Outcome.ok r ↔ w = Value.RegRef r) ∧
    (Value.GetExtRegRef w = Outcome.ok e ↔ w = Value.ExtRegRef e) ∧
    (w.type ≠ IRType.RegRef → Value.GetRegRef w = Outcome.assert_failed) ∧
    (w.type ≠ IRType.ExtRegRef → Value.GetExtRegRef w = Outcome.assert_failed) := by
  refine ⟨rfl, rfl, rfl, rfl, ?_, ?_, ?_, ?_⟩
  · cases w <;> simp [Value.GetRegRef]
  · cases w <;> simp [Value.GetExtRegRef]
  · cases w <;> simp [Value.GetRegRef, Value.type]
  · cases w <;> simp [Value.GetExtRegRef, Value.type]

/-- C16 witness: on the reference to the identity of register reference 3 the accessor
fails, on register reference 3 it returns 3. -/
theorem C16_register_reference_accessors_are_direct_witness :
    Value.GetRegRef (Value.Opaque 4) = Outcome.assert_failed ∧
    Value.GetRegRef (Value.RegRef 3) = Outcome.ok 3 ∧
    Value.GetExtRegRef (Value.U8 7) = Outcome.assert_failed :=
  ⟨(C16_register_reference_accessors_are_direct (Value.Opaque 4) 4 3 9).1,
    (C16_register_reference_accessors_are_direct (Value.RegRef 3) 4 3 9).2.2.2.2.1.mpr rfl,
    (C16_register_reference_accessors_are_direct (Value.U8 7) 4 3 9).2.2.2.2.2.2.2
      (by decide)⟩

theorem AcyclicFrom_arg_lt (l : List Inst) :
    ∀ (first i : Nat) (node : Inst) (arg : Value) (j : Nat), AcyclicFrom first l = true →
      l[i]? = some node → arg ∈ node.args → arg = Value.Opaque j → j < first + i := by
  induction l with
  | nil => intro first i node arg j _ hi; simp at hi
  | cons head rest ih =>
    intro first i node arg j hac hi harg hj
    simp only [AcyclicFrom, Bool.and_eq_true, List.all_eq_true] at hac
    cases i with
    | zero =>
      simp only [List.getElem?_cons_zero, Option.some.injEq] at hi
      subst hi
      have := hac.1 arg harg
      subst hj
      simpa using this
    | succ i =>
      simp only [List.getElem?_cons_succ] at hi
      have := ih (first + 1) i node arg j hac.2 hi harg hj
      omega

theorem Acyclic_first_arg_lt (block : List Inst) (hac : Acyclic block = true) (i : Nat)
    (node : Inst) (arg : Value) (j : Nat) (hi : block[i]? = some node)
    (harg : node.GetArg 0 = some arg) (hj : arg = Value.Opaque j) : j < i := by
  have hmem : arg ∈ node.args := by
    unfold Inst.GetArg at harg
    exact List.mem_iff_getElem?.mpr ⟨0, harg⟩
  have := AcyclicFrom_arg_lt block 0 i node arg j hac hi hmem hj
  omega

theorem Chase_total {α : Type} (block : List Inst) (onNode : Inst → Outcome α)
    (onValue : Value → Outcome α) (hac : Acyclic block = true)
    (hnode : ∀ node, onNode node ≠ Outcome.out_of_fuel)
    (hvalue : ∀ v, onValue v ≠ Outcome.out_of_fuel) :
    ∀ (fuel : Nat) (v : Value), v.rank ≤ fuel →
      Chase block onNode onValue fuel v ≠ Outcome.out_of_fuel := by
  intro fuel
  induction fuel with
  | zero =>
    intro v hr
    cases v <;> simp [Value.rank] at hr <;> simp [Chase, hvalue]
  | succ fuel ih =>
    intro v hr
    cases v with
    | Opaque inst =>
      simp only [Value.rank] at hr
      cases hb : block[inst]? with
      | none => simp [Chase, hb]
      | some node =>
        by_cases hop : node.GetOpcode = Opcode.Identity
        · cases ha : node.GetArg 0 with
          | none => simp [Chase, hb, hop, ha]
          | some arg =>
            have hstep : Chase block onNode onValue (fuel + 1) (Value.Opaque inst) =
                Chase block onNode onValue fuel arg := by
              simp [Chase, hb, hop, ha]
            rw [hstep]
            apply ih
            cases harg : arg with
            | Opaque j =>
              have := Acyclic_first_arg_lt block hac inst node arg j hb ha harg
              simp only [Value.rank]
              omega
            | _ => simp [Value.rank]
        · simp [Chase, hb, hop, hnode]
    | _ => simp [Chase, hvalue]

theorem Chase_resolve {α : Type} (block : List Inst) (onNode : Inst → Outcome α)
    (onValue : Value → Outcome α) :
    ∀ (fuel : Nat) (v r : Value), Value.Resolve block fuel v = Outcome.ok r →
      Chase block onNode onValue fuel v = Chase block onNode onValue 0 r ∧
      NotIdentityRef block r = true ∧
      (∀ inst, r = Value.Opaque inst →
        ∃ node, block[inst]? = some node ∧ node.GetOpcode ≠ Opcode.Identity) := by
  have hleaf : ∀ (fuel : Nat) (v r : Value), (∀ inst, v ≠ Value.Opaque inst) →
      Value.Resolve block fuel v = Outcome.ok r →
      Chase block onNode onValue fuel v = Chase block onNode onValue 0 r ∧
      NotIdentityRef block r = true ∧
      (∀ inst, r = Value.Opaque inst →
        ∃ node, block[inst]? = some node ∧ node.GetOpcode ≠ Opcode.Identity) := by
    intro fuel v r hno h
    cases v with
    | Opaque inst => exact absurd rfl (hno inst)
    | _ =>
      cases fuel <;> simp only [Value.Resolve, Outcome.ok.injEq] at h <;> subst h <;>
        simp [Chase, NotIdentityRef]
  have hnode : ∀ (fuel : Nat) (inst : Nat) (node : Inst) (r : Value),
      block[inst]? = some node → node.GetOpcode ≠ Opcode.Identity →
      Value.Resolve block fuel (Value.Opaque inst) = Outcome.ok r →
      Chase block onNode onValue fuel (Value.Opaque inst) = Chase block onNode onValue 0 r ∧
      NotIdentityRef block r = true ∧
      (∀ i, r = Value.Opaque i →
        ∃ node, block[i]? = some node ∧ node.GetOpcode ≠ Opcode.Identity) := by
    intro fuel inst node r hb hop h
    have hr : r = Value.Opaque inst := by
      cases fuel <;> simp [Value.Resolve, hb, hop] at h <;> exact h.symm
    subst hr
    refine ⟨?_, by simp [NotIdentityRef, hb, hop], ?_⟩
    · cases fuel <;> simp [Chase, hb, hop]
    · intro i hi
      cases hi
      exact ⟨node, hb, hop⟩
  intro fuel
  induction fuel with
  | zero =>
    intro v r h
    cases hv : v with
    | Opaque inst =>
      subst hv
      cases hb : block[inst]? with
      | none => simp [Value.Resolve, hb] at h
      | some node =>
        by_cases hop : node.GetOpcode = Opcode.Identity
        · cases ha : node.GetArg 0 <;> simp [Value.Resolve, hb, hop, ha] at h
        · exact hnode 0 inst node r hb hop h
    | _ => subst hv; exact hleaf 0 _ r (by intro inst hc; cases hc) h
  | succ fuel ih =>
    intro v r h
    cases hv : v with
    | Opaque inst =>
      subst hv
      cases hb : block[inst]? with
      | none => simp [Value.Resolve, hb] at h
      | some node =>
        by_cases hop : node.GetOpcode = Opcode.Identity
        · cases ha : node.GetArg 0 with
          | none => simp [Value.Resolve, hb, hop, ha] at h
          | some arg =>
            have hres : Value.Resolve block (fuel + 1) (Value.Opaque inst) =
                Value.Resolve block fuel arg := by
              simp [Value.Resolve, hb, hop, ha]
            have hstep : Chase block onNode onValue (fuel + 1) (Value.Opaque inst) =
                Chase block onNode onValue fuel arg := by
              simp [Chase, hb, hop, ha]
            rw [hres] at h
            rw [hstep]
            exact ih arg r h
        · exact hnode (fuel + 1) inst node r hb hop h
    | _ => subst hv; exact hleaf (fuel + 1) _ r (by intro inst hc; cases hc) h

theorem WellFormed_first_arg (block : List Inst) (hwf : WellFormed block = true) (i : Nat)
    (node : Inst) (hi : block[i]? = some node) (hop : node.GetOpcode = Opcode.Identity) :
    ∃ arg, node.GetArg 0 = some arg := by
  simp only [WellFormed, Bool.and_eq_true, List.all_eq_true] at hwf
  have h := hwf.2 node (List.mem_iff_getElem?.mpr ⟨i, hi⟩)
  simp only [hop, decide_True, Bool.not_true, Bool.false_or, Bool.not_eq_true',
    List.isEmpty_eq_false] at h
  cases hargs : node.args with
  | nil => exact absurd hargs h
  | cons a rest => exact ⟨a, by simp [Inst.GetArg, hargs]⟩

theorem Resolve_returns (block : List Inst) (hwf : WellFormed block = true) :
    ∀ (fuel : Nat) (v : Value), v.ValidIn block = true → v.rank ≤ fuel →
      ∃ r, Value.Resolve block fuel v = Outcome.ok r := by
  have hac : Acyclic block = true := by
    simp only [WellFormed, Bool.and_eq_true] at hwf
    exact hwf.1
  intro fuel
  induction fuel with
  | zero =>
    intro v _ hr
    cases v <;> simp [Value.rank] at hr <;> exact ⟨_, rfl⟩
  | succ fuel ih =>
    intro v hvalid hr
    cases v with
    | Opaque inst =>
      simp only [Value.rank] at hr
      simp only [Value.ValidIn, decide_eq_true_eq] at hvalid
      have hb : block[inst]? = some block[inst] := List.getElem?_eq_getElem hvalid
      by_cases hop : (block[inst]).GetOpcode = Opcode.Identity
      · obtain ⟨arg, ha⟩ := WellFormed_first_arg block hwf inst _ hb hop
        have hres : Value.Resolve block (fuel + 1) (Value.Opaque inst) =
            Value.Resolve block fuel arg := by
          simp [Value.Resolve, hb, hop, ha]
        rw [hres]
        apply ih
        · cases harg : arg with
          | Opaque j =>
            have := Acyclic_first_arg_lt block hac inst _ arg j hb ha harg
            simp only [Value.ValidIn, decide_eq_true_eq]
            omega
          | _ => rfl
        · cases harg : arg with
          | Opaque j =>
            have := Acyclic_first_arg_lt block hac inst _ arg j hb ha harg
            simp only [Value.rank]
            omega
          | _ => simp [Value.rank]
      · exact ⟨Value.Opaque inst, by simp [Value.Resolve, hb, hop]⟩
    | _ => exact ⟨_, rfl⟩

/-- C17: in a well-formed acyclic block, on a budget of at least the topological index of the
instruction referred to, `IsImmediate` returns, and it returns false exactly when the value
with every `Identity` instruction followed to its first argument is a reference to an
instruction whose opcode is not `Identity`; when the resolved value has any other
discriminant, and so for every value that is not a reference, it returns true. -/
theorem C17_is_immediate_characterisation (block : List Inst) (v : Value) (fuel : Nat)
    (hwf : WellFormed block = true) (hvalid : v.ValidIn block = true)
    (hfuel : v.rank ≤ fuel) :
    ∃ r, Value.Resolve block fuel v = Outcome.ok r ∧
      NotIdentityRef block r = true ∧
      (Value.IsImmediate block fuel v = Outcome.ok false ↔
        ∃ inst node, r = Value.Opaque inst ∧ block[inst]? = some node ∧
          node.GetOpcode ≠ Opcode.Identity) ∧
      (r.type ≠ IRType.Opaque → Value.IsImmediate block fuel v = Outcome.ok true) ∧
      (v.type ≠ IRType.Opaque → Value.IsImmediate block fuel v = Outcome.ok true) ∧
      (Value.IsImmediate block fuel v = Outcome.ok true ∨
        Value.IsImmediate block fuel v = Outcome.ok false) := by
  obtain ⟨r, hres⟩ := Resolve_returns block hwf fuel v hvalid hfuel
  obtain ⟨hchase, hnot, hnode⟩ := Chase_resolve block (fun _ => Outcome.ok false)
    (fun _ => Outcome.ok true) fuel v r hres
  have hdirect : v.type ≠ IRType.Opaque → Value.IsImmediate block fuel v = Outcome.ok true := by
    intro hv
    cases v <;> first | exact absurd rfl hv | (cases fuel <;> rfl)
  refine ⟨r, hres, hnot, ?_, ?_, hdirect, ?_⟩
  · rw [IsImmediate_eq_Chase, hchase]
    cases r with
    | Opaque inst =>
      obtain ⟨node, hb, hop⟩ := hnode inst rfl
      simp only [Chase, hb, hop, if_false, true_iff]
      exact ⟨inst, node, rfl, hb, hop⟩
    | _ => simp [Chase]
  · intro ht
    rw [IsImmediate_eq_Chase, hchase]
    cases r <;> first | exact absurd rfl ht | simp [Chase]
  · rw [IsImmediate_eq_Chase, hchase]
    cases r with
    | Opaque inst =>
      obtain ⟨node, hb, hop⟩ := hnode inst rfl
      simp [Chase, hb, hop]
    | _ => simp [Chase]

/-- C17 witness: in the example block the chain of identities ending at the byte 7 is an
immediate, the identity of instruction 0 is not. -/
theorem C17_is_immediate_characterisation_witness :
    WellFormed demoBlock = true ∧
    (∃ r, Value.Resolve demoBlock 4 (Value.Opaque 3) = Outcome.ok r ∧
      Value.IsImmediate demoBlock 4 (Value.Opaque 3) = Outcome.ok true) ∧
    Value.IsImmediate demoBlock 6 (Value.Opaque 5) = Outcome.ok false := by
  obtain ⟨r, hres, _, _, himm, _, _⟩ := C17_is_immediate_characterisation demoBlock
    (Value.Opaque 3) 4 (by decide) (by decide) (by decide)
  have hr : r = Value.U8 7 := by
    have h2 : Value.Resolve demoBlock 4 (Value.Opaque 3) = Outcome.ok (Value.U8 7) := by decide
    rw [h2] at hres
    cases hres
    rfl
  exact ⟨by decide, ⟨r, hres, himm (by rw [hr]; decide)⟩, by decide⟩

theorem Chase_typed_mismatch {α : Type} (block : List Inst) (onValue : Value → Outcome α)
    (r : Value)
    (hnode : ∀ inst, r = Value.Opaque inst →
      ∃ node, block[inst]? = some node ∧ node.GetOpcode ≠ Opcode.Identity)
    (hvalue : ∀ v, v = r → (∀ inst, v ≠ Value.Opaque inst) →
      onValue v = Outcome.assert_failed) :
    Chase block (fun _ => Outcome.assert_failed) onValue 0 r = Outcome.assert_failed := by
  cases hr : r with
  | Opaque inst =>
    obtain ⟨node, hb, hop⟩ := hnode inst hr
    simp [Chase, hb, hop]
  | _ =>
    simp only [Chase]
    exact hvalue _ hr.symm (by intro inst hc; cases hc)

/-- C18: when `w` resolves, through its identities, to `r`, each typed accessor returns the
payload `x` if `r` is the value constructed from the payload `x` of its kind, and fails its
assertion if the discriminant of `r` is any other; in particular the accessor of a kind
applied to the value constructed from a payload of that kind returns the payload. -/
theorem C18_typed_extraction_matches_discriminant (block : List Inst) (fuel : Nat)
    (w r : Value) (b : Bool) (x8 x16 x32 x64 : Nat) (c : List Nat)
    (hres : Value.Resolve block fuel w = Outcome.ok r) :
    (∀ x, r = Value.U1 x → Value.GetU1 block fuel w = Outcome.ok x) ∧
    (r.type ≠ IRType.U1 → Value.GetU1 block fuel w = Outcome.assert_failed) ∧
    (∀ x, r = Value.U8 x → Value.GetU8 block fuel w = Outcome.ok x) ∧
    (r.type ≠ IRType.U8 → Value.GetU8 block fuel w = Outcome.assert_failed) ∧
    (∀ x, r = Value.U16 x → Value.GetU16 block fuel w = Outcome.ok x) ∧
    (r.type ≠ IRType.U16 → Value.GetU16 block fuel w = Outcome.assert_failed) ∧
    (∀ x, r = Value.U32 x → Value.GetU32 block fuel w = Outcome.ok x) ∧
    (r.type ≠ IRType.U32 → Value.GetU32 block fuel w = Outcome.assert_failed) ∧
    (∀ x, r = Value.U64 x → Value.GetU64 block fuel w = Outcome.ok x) ∧
    (r.type ≠ IRType.U64 → Value.GetU64 block fuel w = Outcome.assert_failed) ∧
    (∀ x, r = Value.CoprocInfo x → Value.GetCoprocInfo block fuel w = Outcome.ok x) ∧
    (r.type ≠ IRType.CoprocInfo → Value.GetCoprocInfo block fuel w = Outcome.assert_failed) ∧
    Value.GetU1 block fuel (Value.U1 b) = Outcome.ok b ∧
    Value.GetU8 block fuel (Value.U8 x8) = Outcome.ok x8 ∧
    Value.GetU16 block fuel (Value.U16 x16) = Outcome.ok x16 ∧
    Value.GetU32 block fuel (Value.U32 x32) = Outcome.ok x32 ∧
    Value.GetU64 block fuel (Value.U64 x64) = Outcome.ok x64 ∧
    Value.GetCoprocInfo block fuel (Value.CoprocInfo c) = Outcome.ok c := by
  have hnode := (Chase_resolve block (fun _ => Outcome.ok false)
    (fun _ => Outcome.ok true) fuel w r hres).2.2
  refine ⟨?_, ?_, ?_, ?_, ?_, ?_, ?_, ?_, ?_, ?_, ?_, ?_, ?_, ?_, ?_, ?_, ?_, ?_⟩
  · intro x hx
    rw [GetU1_eq_Chase, (Chase_resolve block _ _ fuel w r hres).1, hx]
    simp [Chase]
  · intro ht
    rw [GetU1_eq_Chase, (Chase_resolve block _ _ fuel w r hres).1]
    exact Chase_typed_mismatch block _ r hnode (by
      intro v hv _
      subst hv
      cases v <;> first | rfl | exact absurd rfl ht)
  · intro x hx
    rw [GetU8_eq_Chase, (Chase_resolve block _ _ fuel w r hres).1, hx]
    simp [Chase]
  · intro ht
    rw [GetU8_eq_Chase, (Chase_resolve block _ _ fuel w r hres).1]
    exact Chase_typed_mismatch block _ r hnode (by
      intro v hv _
      subst hv
      cases v <;> first | rfl | exact absurd rfl ht)
  · intro x hx
    rw [GetU16_eq_Chase, (Chase_resolve block _ _ fuel w r hres).1, hx]
    simp [Chase]
  · intro ht
    rw [GetU16_eq_Chase, (Chase_resolve block _ _ fuel w r hres).1]
    exact Chase_typed_mismatch block _ r hnode (by
      intro v hv _
      subst hv
      cases v <;> first | rfl | exact absurd rfl ht)
  · intro x hx
    rw [GetU32_eq_Chase, (Chase_resolve block _ _ fuel w r hres).1, hx]
    simp [Chase]
  · intro ht
    rw [GetU32_eq_Chase, (Chase_resolve block _ _ fuel w r hres).1]
    exact Chase_typed_mismatch block _ r hnode (by
      intro v hv _
      subst hv
      cases v <;> first | rfl | exact absurd rfl ht)
  · intro x hx
    rw [GetU64_eq_Chase, (Chase_resolve block _ _ fuel w r hres).1, hx]
    simp [Chase]
  · intro ht
    rw [GetU64_eq_Chase, (Chase_resolve block _ _ fuel w r hres).1]
    exact Chase_typed_mismatch block _ r hnode (by
      intro v hv _
      subst hv
      cases v <;> first | rfl | exact absurd rfl ht)
  · intro x hx
    rw [GetCoprocInfo_eq_Chase, (Chase_resolve block _ _ fuel w r hres).1, hx]
    simp [Chase]
  · intro ht
    rw [GetCoprocInfo_eq_Chase, (Chase_resolve block _ _ fuel w r hres).1]
    exact Chase_typed_mismatch block _ r hnode (by
      intro v hv _
      subst hv
      cases v <;> first | rfl | exact absurd rfl ht)
  · cases fuel <;> simp [Value.GetU1]
  · cases fuel <;> simp [Value.GetU8]
  · cases fuel <;> simp [Value.GetU16]
  · cases fuel <;> simp [Value.GetU32]
  · cases fuel <;> simp [Value.GetU64]
  · cases fuel <;> simp [Value.GetCoprocInfo]

/-- C18 witness: the reference to the chain of identities ending at the byte 7 gives 7 to
`GetU8` and fails the assertion of `GetU16`. -/
theorem C18_typed_extraction_matches_discriminant_witness :
    Value.Resolve demoBlock 3 (Value.Opaque 3) = Outcome.ok (Value.U8 7) ∧
    Value.GetU8 demoBlock 3 (Value.Opaque 3) = Outcome.ok 7 ∧
    Value.GetU16 demoBlock 3 (Value.Opaque 3) = Outcome.assert_failed ∧
    Value.GetU64 demoBlock 3 (Value.U64 9) = Outcome.ok 9 :=
  ⟨by decide,
    (C18_typed_extraction_matches_discriminant demoBlock 3 (Value.Opaque 3) (Value.U8 7)
      true 1 2 3 9 [] (by decide)).2.2.1 7 rfl,
    (C18_typed_extraction_matches_discriminant demoBlock 3 (Value.Opaque 3) (Value.U8 7)
      true 1 2 3 9 [] (by decide)).2.2.2.2.2.1 (by decide),
    (C18_typed_extraction_matches_discriminant demoBlock 3 (Value.Opaque 3) (Value.U8 7)
      true 1 2 3 9 [] (by decide)).2.2.2.2.2.2.2.2.2.2.2.2.2.2.2.2.1⟩

/-- C19: in a block in which every argument that is a reference refers to a strictly earlier
instruction, `IsImmediate`, `GetType` and `GetU1` to `GetCoprocInfo` end on every operand
within a budget of as many hops as the topological index (counted from 1) of the instruction
the operand refers to, and within no hops at all on an operand that is not a reference; if
moreover the block is well-formed and the operand a value of it, `IsImmediate` and `GetType`
return. -/
theorem C19_identity_chase_terminates (block : List Inst) (v : Value) (fuel : Nat)
    (hac : Acyclic block = true) (hfuel : v.rank ≤ fuel) :
    Value.IsImmediate block fuel v ≠ Outcome.out_of_fuel ∧
    Value.GetType block fuel v ≠ Outcome.out_of_fuel ∧
    Value.GetU1 block fuel v ≠ Outcome.out_of_fuel ∧
    Value.GetU8 block fuel v ≠ Outcome.out_of_fuel ∧
    Value.GetU16 block fuel v ≠ Outcome.out_of_fuel ∧
    Value.GetU32 block fuel v ≠ Outcome.out_of_fuel ∧
    Value.GetU64 block fuel v ≠ Outcome.out_of_fuel ∧
    Value.GetCoprocInfo block fuel v ≠ Outcome.out_of_fuel ∧
    (WellFormed block = true → v.ValidIn block = true →
      (∃ b, Value.IsImmediate block fuel v = Outcome.ok b) ∧
      (∃ t, Value.GetType block fuel v = Outcome.ok t)) := by
  refine ⟨?_, ?_, ?_, ?_, ?_, ?_, ?_, ?_, ?_⟩
  · rw [IsImmediate_eq_Chase]
    exact Chase_total block _ _ hac (by intro node; simp)
      (by intro v; cases v <;> simp) fuel v hfuel
  · rw [GetType_eq_Chase]
    exact Chase_total block _ _ hac (by intro node; simp)
      (by intro v; cases v <;> simp) fuel v hfuel
  · rw [GetU1_eq_Chase]
    exact Chase_total block _ _ hac (by intro node; simp)
      (by intro v; cases v <;> simp) fuel v hfuel
  · rw [GetU8_eq_Chase]
    exact Chase_total block _ _ hac (by intro node; simp)
      (by intro v; cases v <;> simp) fuel v hfuel
  · rw [GetU16_eq_Chase]
    exact Chase_total block _ _ hac (by intro node; simp)
      (by intro v; cases v <;> simp) fuel v hfuel
  · rw [GetU32_eq_Chase]
    exact Chase_total block _ _ hac (by intro node; simp)
      (by intro v; cases v <;> simp) fuel v hfuel
  · rw [GetU64_eq_Chase]
    exact Chase_total block _ _ hac (by intro node; simp)
      (by intro v; cases v <;> simp) fuel v hfuel
  · rw [GetCoprocInfo_eq_Chase]
    exact Chase_total block _ _ hac (by intro node; simp)
      (by intro v; cases v <;> simp) fuel v hfuel
  · intro hwf hvalid
    obtain ⟨r, hres⟩ := Resolve_returns block hwf fuel v hvalid hfuel
    constructor
    · obtain ⟨hchase, _, hnode⟩ := Chase_resolve block (fun _ => Outcome.ok false)
        (fun _ => Outcome.ok true) fuel v r hres
      rw [IsImmediate_eq_Chase, hchase]
      cases r with
      | Opaque inst =>
        obtain ⟨node, hb, hop⟩ := hnode inst rfl
        exact ⟨false, by simp [Chase, hb, hop]⟩
      | _ => exact ⟨true, by simp [Chase]⟩
    · obtain ⟨hchase, _, hnode⟩ := Chase_resolve block (fun node => Outcome.ok node.GetType)
        (fun v => Outcome.ok v.type) fuel v r hres
      rw [GetType_eq_Chase, hchase]
      cases r with
      | Opaque inst =>
        obtain ⟨node, hb, hop⟩ := hnode inst rfl
        exact ⟨node.GetType, by simp [Chase, hb, hop]⟩
      | _ => exact ⟨_, rfl⟩

theorem cyclicBlock_never_returns (fuel : Nat) :
    Value.IsImmediate cyclicBlock fuel (Value.Opaque 0) = Outcome.out_of_fuel := by
  induction fuel with
  | zero => rfl
  | succ fuel ih =>
    have hstep : Value.IsImmediate cyclicBlock (fuel + 1) (Value.Opaque 0) =
        Value.IsImmediate cyclicBlock fuel (Value.Opaque 0) := rfl
    rw [hstep, ih]

/-- C19 witness: the example block is acyclic and the accessors end on the reference to
instruction 3 within 4 hops; in the block whose only instruction is an identity of itself,
which is not acyclic, the chase of `IsImmediate` has not ended within any number of hops. -/
theorem C19_identity_chase_terminates_witness :
    Acyclic demoBlock = true ∧
    Value.IsImmediate demoBlock 4 (Value.Opaque 3) ≠ Outcome.out_of_fuel ∧
    Value.GetU8 demoBlock 4 (Value.Opaque 3) = Outcome.ok 7 ∧
    Acyclic cyclicBlock = false ∧
    (∀ fuel, Value.IsImmediate cyclicBlock fuel (Value.Opaque 0) = Outcome.out_of_fuel) :=
  ⟨by decide,
    (C19_identity_chase_terminates demoBlock (Value.Opaque 3) 4 (by decide) (by decide)).1,
    by decide, by decide, cyclicBlock_never_returns⟩

end Theorems

end Dynarmic
